import Mathlib

/-!
Verification development for the mobile API client
(`src/mobile/src/api/client.ts` of mohitkummar022004/mobileStarterTemplate).

The client performs authenticated HTTP requests with single-flight token
refresh.  The module-level mutable state of `client.ts` (`isRefreshing`,
`failedQueue`, `retryMap`, the `AsyncStorage` slots, and the instance's
`defaultHeaders`) is embedded as an explicit state record, and the
promise-driven control flow of `ApiClient.request` is embedded as a
small-step interleaving semantics: each logical request is a task whose
synchronous segments between `await` points are atomic steps, and the
environment (the network) chooses when and with what result each pending
fetch settles.  A second, sequential model adds the timeout/abort wiring of
lines 186-201 for a single call.  Line numbers in comments refer to
`client.ts`.
-/

namespace MobileApi

/-! ## JS-object string maps

`defaultHeaders` and all header objects in the source are plain JS objects
with string values.  They are embedded as insertion-ordered association
lists: property assignment keeps an existing key's position, a new key is
appended, and object spread `{...a, ...b}` lays `b`'s entries over `a`. -/

/-- Property assignment `obj[k] = v` on a JS object. -/
def objSet : List (String × String) → String → String → List (String × String)
  | [], k, v => [(k, v)]
  | (k', v') :: rest, k, v =>
    if k' = k then (k, v) :: rest else (k', v') :: objSet rest k v

/-- Property deletion `delete obj[k]` (line 415). -/
def objDelete (m : List (String × String)) (k : String) : List (String × String) :=
  m.filter (fun kv => kv.1 ≠ k)

/-- Property read `obj[k]`. -/
def objGet (m : List (String × String)) (k : String) : Option String :=
  (m.find? (fun kv => kv.1 = k)).map (fun kv => kv.2)

/-- Object spread `{...a, ...b}`. -/
def objMergeList (a b : List (String × String)) : List (String × String) :=
  b.foldl (fun acc kv => objSet acc kv.1 kv.2) a

/-! ## Response bodies, errors, `handleError` -/

/-- The JSON body of a response, as produced by `response.json().catch(() => ({}))`
(lines 236, 303, 341): the optional `data` and `message` fields that the client
reads, plus `whole`, standing for the body value as a whole (used by the
`retryData.data || retryData` fallback).  A parse failure yields `⟨none, none, w⟩`
for the empty object. -/
structure RespBody where
  dataField : Option String
  message : Option String
  whole : String
deriving Repr, DecidableEq

/-- The uniform error shape `ApiError` of `src/mobile/src/api/types.ts`
(fields `code`/`errors` are only ever produced by the `error?.response`
branch of `handleError`, lines 75-83, which is unreachable for every value
this client actually throws, so they are omitted). -/
structure ApiError where
  message : String
  status : Option Nat
deriving Repr, DecidableEq

/-- JS `s₁ || s₂` on strings: the empty string is falsy. -/
def strOr (s d : String) : String := if s = "" then d else s

/-- The values that reach `handleError` in `client.ts`: `Error` instances
(carrying their `name`, e.g. "AbortError", and `message`), thrown plain
`ApiError`-shaped objects, and parsed response bodies. -/
inductive Thrown where
  | errObj (name : String) (message : String)
  | apiErr (e : ApiError)
  | bodyObj (b : RespBody)
deriving Repr, DecidableEq

def unexpectedErrMsg : String := "An unexpected error occurred"

def networkErrMsg : String := "Network error. Please check your connection."

/-- `handleError` (lines 67-89).  First branch: `error instanceof Error`.
The `error?.response` branch (75-83) is skipped: no value this client throws
carries a `response` field.  Final branch: `error?.message || '...'` with the
given `status` argument (which is `undefined` = `none` at most call sites). -/
def handleError : Thrown → Option Nat → ApiError
  | .errObj _ msg, status => ⟨strOr msg unexpectedErrMsg, status⟩
  | .apiErr e, status => ⟨strOr e.message networkErrMsg, status⟩
  | .bodyObj b, status => ⟨strOr (b.message.getD "") networkErrMsg, status⟩

/-- `response.ok`: status in the 2xx range. -/
def respOk (s : Nat) : Bool := decide (200 ≤ s) && decide (s ≤ 299)

/-- The success payload `{ data: d.data || d, message: d.message, success: true }`
(lines 243-247, 312-316, 349-353); `success` is the constant true. -/
structure ApiResponse where
  data : String
  message : Option String
deriving Repr, DecidableEq

/-- `retryData.data || retryData` with JS falsiness on the `data` field. -/
def respData (b : RespBody) : String :=
  match b.dataField with
  | some s => if s = "" then b.whole else s
  | none => b.whole

def mkApiResponse (b : RespBody) : ApiResponse := ⟨respData b, b.message⟩

/-! ## Credential storage and the refresh exchange -/

/-- The three `AsyncStorage` slots (`STORAGE_KEYS` of `constants/api.ts`). -/
structure Storage where
  authToken : Option String
  refreshTok : Option String
  userData : Option String
deriving Repr, DecidableEq

def emptyStorage : Storage := ⟨none, none, none⟩

/-- The `AuthResponse` payload of a successful refresh exchange
(`{ user, tokens: { access: { token }, refresh: { token } } }`). -/
structure AuthData where
  accessToken : String
  refreshTokenNew : String
  userJson : String
deriving Repr, DecidableEq

/-- Outcome of the `fetch` at line 117: a 2xx with a parsed `AuthResponse`,
a non-2xx (`throw` at line 126), or a rejection (network failure; a failing
`response.json()` lands in the same catch and is covered by `netErr`). -/
inductive RefreshOutcome where
  | ok (d : AuthData)
  | httpErr (status : Nat)
  | netErr (msg : String)
deriving Repr, DecidableEq

def RefreshOutcome.isOk : RefreshOutcome → Bool
  | .ok _ => true
  | _ => false

/-- JS falsiness of `refreshToken` at line 111: `null` or the empty string. -/
def jsFalsyStr : Option String → Bool
  | none => true
  | some s => s = ""

/-- Lines 125-152: the effects of the refresh exchange settling.  On success
(lines 129-139) the three slots are overwritten and the `Authorization`
default header is set; on any thrown error (lines 140-151) all three slots
are removed and the header deleted; the returned value is the new access
token or `null`. -/
def refreshSettle (_st : Storage) (hd : List (String × String)) :
    RefreshOutcome → Option String × Storage × List (String × String)
  | .ok d =>
      (some d.accessToken,
       ⟨some d.accessToken, some d.refreshTokenNew, some d.userJson⟩,
       objSet hd "Authorization" ("Bearer " ++ d.accessToken))
  | .httpErr _ => (none, emptyStorage, objDelete hd "Authorization")
  | .netErr _ => (none, emptyStorage, objDelete hd "Authorization")

/-- `refreshToken` (lines 108-153) as a whole, with the exchange outcome
supplied by the environment.  Note the early return at lines 110-113: an
absent or empty stored refresh token yields `null` *without* clearing the
slots or the header. -/
def refreshTokenFn (st : Storage) (hd : List (String × String)) (out : RefreshOutcome) :
    Option String × Storage × List (String × String) :=
  if jsFalsyStr st.refreshTok then (none, st, hd) else refreshSettle st hd out

/-! ## The interleaving model of `ApiClient.request`

Each invocation of `request` is a task.  The synchronous segments between
`await` points run atomically; the environment decides, via `Act`, which
pending asynchronous operation settles next and with what result.  The
suspension points kept by the model are: the first `fetch` (line 200), the
`AsyncStorage.getItem` inside `refreshToken` (line 110), the refresh POST
(line 117), and the replay `fetch` (lines 229 / 296).  The storage reads of
the prologue and the `response.json()` parses are folded into the adjacent
step (their interleaving is not observable through any state the claims
mention); the body delivered with a response stands for its parsed JSON. -/

/-- Outcome of a `fetch` of the target URL: a response with a status and
parsed body, a transport rejection, or an `AbortError` (the abort controller
fired). -/
inductive FetchOutcome where
  | resp (status : Nat) (body : RespBody)
  | netErr (msg : String)
  | abortErr
deriving Repr, DecidableEq

def refreshPath : String := "/auth/refresh-tokens"

/-- `url.includes('/auth/refresh-tokens')` (line 175). -/
def includesSub (hay needle : String) : Bool := decide (needle.toList <:+: hay.toList)

/-- `token ? { Authorization: Bearer token } : {}` (line 97). -/
def bearerHeaders : Option String → List (String × String)
  | some t => [("Authorization", "Bearer " ++ t)]
  | none => []

/-- Lines 94-102 and 178-183: the headers of the first attempt.  For the
refresh endpoint the stored token is not consulted (line 178). -/
def mkRequestHeaders (defaults : List (String × String)) (storedTok : Option String)
    (isRefresh : Bool) (caller : List (String × String)) : List (String × String) :=
  objMergeList (objMergeList defaults (if isRefresh then [] else bearerHeaders storedTok)) caller

/-- The per-invocation data fixed in the prologue (lines 158-183): request
identity, the `hasRetried` value read once at line 172, the refresh-endpoint
flag, and the computed first-attempt headers.  `callerHeaders` is the
caller's `config.headers`, which the source only ever spreads, never writes. -/
structure ReqCtx where
  method : String
  url : String
  callerHeaders : List (String × String)
  timeout : Nat
  requestId : String
  hasRetried : Bool
  isRefreshEndpoint : Bool
  requestHeaders : List (String × String)
deriving Repr, DecidableEq

/-- Where a task stands between suspension points.
`refreshInit`: it set `isRefreshing` (line 267) and awaits the storage read
inside `refreshToken`; `refreshWaiting tok`: the refresh POST with body
`{refreshToken: tok}` is in flight; `replaying tok` / `waiterReplaying tok`:
the replay fetch with the fresh token is in flight (starter, lines 296-300;
released waiter, lines 229-233); `queued`: its continuation sits in
`failedQueue` (lines 210-263). -/
inductive Phase where
  | fetching
  | refreshInit
  | refreshWaiting (sentTok : String)
  | replaying (newTok : String)
  | queued
  | waiterReplaying (newTok : String)
  | settledOk (r : ApiResponse)
  | settledErr (e : ApiError)
deriving Repr, DecidableEq

/-- A task: its fixed context, its phase, and a ghost counter of fetches it
has issued for its own URL (1 for the first attempt, +1 for a replay). -/
structure Task where
  ctx : ReqCtx
  phase : Phase
  attempts : Nat
deriving Repr, DecidableEq

/-- Ghost trace events recording the order of observable actions inside
atomic drain steps. -/
inductive Ev where
  | enq (tid : Nat)
  | refreshIssued (tid : Nat) (sentTok : String)
  | resolvedWaiter (tid : Nat) (token : String)
  | rejectedWaiter (tid : Nat) (e : ApiError)
deriving Repr, DecidableEq

/-- The global state: `Date.now()` as `now`; the module-level `isRefreshing`
(line 12), `failedQueue` (line 13, waiter task indices in arrival order) and
`retryMap` (line 16, the set of ids mapped to `true`); the `AsyncStorage`
slots; the instance's `defaultHeaders` (line 37); the tasks; and two ghost
components: the number of refresh POSTs issued and the event log. -/
structure GState where
  now : Nat
  isRefreshing : Bool
  failedQueue : List Nat
  retryMap : List String
  storage : Storage
  defaultHeaders : List (String × String)
  tasks : List Task
  refreshCount : Nat
  log : List Ev
deriving Repr, DecidableEq

/-- `retryMap.set(id, true)` (line 206). -/
def rmSet (m : List String) (id : String) : List String :=
  if m.contains id then m else m ++ [id]

/-- `retryMap.delete(id)`. -/
def rmDelete (m : List String) (id : String) : List String :=
  m.filter (fun x => x ≠ id)

/-- Apply an index-aware transform to every task (used for the atomic queue
drains, where `processQueue`'s `forEach` runs every queued callback once, in
queue order; the order is recorded in the ghost log). -/
def mapWithIdx {α : Type} (f : Nat → α → α) : Nat → List α → List α
  | _, [] => []
  | i, a :: as => f i a :: mapWithIdx f (i + 1) as

/-- The request ids of the current queue members (each queued waiter's
closure captured its own `requestId`). -/
def queuedIds (gs : GState) : List String :=
  gs.failedQueue.filterMap (fun i => (gs.tasks[i]?).map (fun t => t.ctx.requestId))

/-- `processQueue(error, null)` (lines 18-27): every queued waiter's `reject`
handler (lines 258-261) deletes its own retry marker and settles it with
`handleError(err)`; the queue is then emptied (line 26). -/
def rejectDrain (gs : GState) (thrown : Thrown) : GState :=
  let e := handleError thrown none
  { gs with
    tasks := mapWithIdx (fun i t =>
        if i ∈ gs.failedQueue ∧ t.phase = .queued then { t with phase := .settledErr e } else t)
      0 gs.tasks,
    retryMap := gs.retryMap.filter (fun id => id ∉ queuedIds gs),
    failedQueue := [],
    log := gs.log ++ gs.failedQueue.map (fun i => Ev.rejectedWaiter i e) }

/-- `processQueue(null, token)` (line 283): every queued waiter's `resolve`
(lines 212-257) runs synchronously up to its replay `fetch` (line 229),
issuing the replay with the shared new token; the queue is then emptied. -/
def releaseDrain (gs : GState) (token : String) : GState :=
  { gs with
    tasks := mapWithIdx (fun i t =>
        if i ∈ gs.failedQueue ∧ t.phase = .queued then
          { t with phase := .waiterReplaying token, attempts := t.attempts + 1 } else t)
      0 gs.tasks,
    failedQueue := [],
    log := gs.log ++ gs.failedQueue.map (fun i => Ev.resolvedWaiter i token) }

/-- The wrapping every thrown value suffers at the outer catch (line 365):
`handleError(error)` with no status argument. -/
def outerWrap (t : Thrown) : ApiError := handleError t none

/-- The error surfaced for a non-2xx response outside the 401-retry branch:
thrown at line 345 with the response status, re-wrapped (and its status
dropped) by the outer catch at lines 354-365. -/
def plainHttpErr (status : Nat) (b : RespBody) : ApiError :=
  outerWrap (.apiErr (handleError (.bodyObj b) (some status)))

def timeoutErrMsg : String := "Request timeout. Please try again."

def authFailedMsg : String := "Authentication failed. Please login again."

def refreshFailedMsg : String := "Token refresh failed"

/-- The error each queued waiter is rejected with when the refresh yields no
token: `processQueue(new Error('Token refresh failed'), null)` at line 273,
passed through the reject handler's `handleError` (line 260). -/
def refreshFailedWaiterErr : ApiError := handleError (.errObj "Error" refreshFailedMsg) none

/-- The starter's final error when the refresh yields no token: the
`ApiError` thrown at lines 276-279 travels through the catch at 323
(`handleError(refreshError, 401)`, line 328) and the outer catch at 354
(`handleError(error)`, line 365, which drops the status again). -/
def authFailedFinalErr : ApiError :=
  outerWrap (.apiErr (handleError (.apiErr ⟨authFailedMsg, some 401⟩) (some 401)))

/-- The value reaching a replay `catch (retryErr)` (lines 248, 317): for a
non-2xx replay response the `ApiError` thrown at 239/306, otherwise the
rejection of the replay fetch itself. -/
def replayThrown : FetchOutcome → Thrown
  | .resp s b => .apiErr (handleError (.bodyObj b) (some s))
  | .netErr m => .errObj "TypeError" m
  | .abortErr => .errObj "AbortError" "Aborted"

/-- The starter's final error when its replay fails: wrapped at line 321,
given status 401 at line 328, and wrapped again (status dropped) at 365. -/
def starterReplayErr (th : Thrown) : ApiError :=
  outerWrap (.apiErr (handleError (.apiErr (handleError th none)) (some 401)))

/-- A released waiter's final error when its replay fails: the single
wrapping at line 251. -/
def waiterReplayErr (th : Thrown) : ApiError := handleError th none

/-! ### The step function -/

/-- Environment / scheduler choices. -/
inductive Act where
  | spawn (method : String) (url : String) (caller : List (String × String)) (timeout : Nat)
  | deliverFirst (tid : Nat) (out : FetchOutcome)
  | refreshRead (tid : Nat)
  | deliverRefresh (tid : Nat) (out : RefreshOutcome)
  | deliverReplay (tid : Nat) (out : FetchOutcome)
  | tick
deriving Repr, DecidableEq

/-- The prologue of `request` (lines 158-201): build the id from method, URL
and `Date.now()` (line 171), read `hasRetried` (line 172), detect the
refresh endpoint (line 175), build headers (178-183) and issue the first
fetch. -/
def doSpawn (gs : GState) (method url : String) (caller : List (String × String))
    (timeout : Nat) : GState :=
  let requestId := method ++ ":" ++ url ++ ":" ++ toString gs.now
  let hasRetried := gs.retryMap.contains requestId
  let isRef := includesSub url refreshPath
  let hdrs := mkRequestHeaders gs.defaultHeaders gs.storage.authToken isRef caller
  { gs with tasks := gs.tasks ++
      [⟨⟨method, url, caller, timeout, requestId, hasRetried, isRef, hdrs⟩, .fetching, 1⟩] }

/-- The first fetch settles (lines 200-366, without the refresh/replay
continuations).  On a 401 with `!hasRetried && !isRefreshEndpoint`
(line 205) the marker is set (206) and the task either enqueues a waiter
(209-263, when `isRefreshing`) or sets the flag and enters the refresh
(267-270).  Every other outcome settles directly (332-366). -/
def doDeliverFirst (gs : GState) (tid : Nat) (out : FetchOutcome) : Option GState :=
  match gs.tasks[tid]? with
  | none => none
  | some t =>
    match t.phase with
    | .fetching =>
      match out with
      | .resp status b =>
        if status = 401 ∧ t.ctx.hasRetried = false ∧ t.ctx.isRefreshEndpoint = false then
          let rm := rmSet gs.retryMap t.ctx.requestId
          if gs.isRefreshing then
            some { gs with
              retryMap := rm,
              failedQueue := gs.failedQueue ++ [tid],
              tasks := gs.tasks.set tid { t with phase := .queued },
              log := gs.log ++ [.enq tid] }
          else
            some { gs with
              retryMap := rm,
              isRefreshing := true,
              tasks := gs.tasks.set tid { t with phase := .refreshInit } }
        else
          if respOk status then
            some { gs with
              retryMap := rmDelete gs.retryMap t.ctx.requestId,
              tasks := gs.tasks.set tid { t with phase := .settledOk (mkApiResponse b) } }
          else
            some { gs with
              retryMap := rmDelete gs.retryMap t.ctx.requestId,
              tasks := gs.tasks.set tid { t with phase := .settledErr (plainHttpErr status b) } }
      | .netErr msg =>
        some { gs with
          retryMap := rmDelete gs.retryMap t.ctx.requestId,
          tasks := gs.tasks.set tid
            { t with phase := .settledErr (outerWrap (.errObj "TypeError" msg)) } }
      | .abortErr =>
        some { gs with
          retryMap := rmDelete gs.retryMap t.ctx.requestId,
          tasks := gs.tasks.set tid
            { t with phase := .settledErr ⟨timeoutErrMsg, some 408⟩ } }
    | _ => none

/-- `refreshToken()` returned `null`: lines 272-280 reject and empty the
queue, delete the marker and reset the flag; the thrown `ApiError` is caught
at 323 (whose `processQueue` call at 325 finds the already-emptied queue)
and re-wrapped at 328 and 365. -/
def refreshNullCont (gs : GState) (tid : Nat) (t : Task) : GState :=
  let gs1 := rejectDrain gs (.errObj "Error" refreshFailedMsg)
  { gs1 with
    retryMap := rmDelete gs1.retryMap t.ctx.requestId,
    isRefreshing := false,
    tasks := gs1.tasks.set tid { t with phase := .settledErr authFailedFinalErr } }

/-- The `AsyncStorage.getItem` inside `refreshToken` settles (lines
110-123): an absent or empty stored refresh token makes `refreshToken`
return `null` at once (110-113, clearing nothing); otherwise the refresh
POST is issued (116-123). -/
def doRefreshRead (gs : GState) (tid : Nat) : Option GState :=
  match gs.tasks[tid]? with
  | none => none
  | some t =>
    match t.phase with
    | .refreshInit =>
      match gs.storage.refreshTok with
      | none => some (refreshNullCont gs tid t)
      | some rt =>
        if rt = "" then some (refreshNullCont gs tid t)
        else
          some { gs with
            refreshCount := gs.refreshCount + 1,
            tasks := gs.tasks.set tid { t with phase := .refreshWaiting rt },
            log := gs.log ++ [.refreshIssued tid rt] }
    | _ => none

/-- The refresh POST settles (lines 125-152 inside `refreshToken`, then the
continuation at 270-300).  On failure the slots are cleared and the null
continuation runs; on success the slots and the `Authorization` default are
updated, `processQueue(null, newToken)` releases every waiter with the new
token (283), and the starter issues its own replay (286-300).  Note that
`isRefreshing` is *not* reset on the success path here - only at lines
310/320/327, after the replay settles. -/
def doDeliverRefresh (gs : GState) (tid : Nat) (out : RefreshOutcome) : Option GState :=
  match gs.tasks[tid]? with
  | none => none
  | some t =>
    match t.phase with
    | .refreshWaiting _ =>
      let r := refreshSettle gs.storage gs.defaultHeaders out
      let gs0 := { gs with storage := r.2.1, defaultHeaders := r.2.2 }
      match r.1 with
      | none => some (refreshNullCont gs0 tid t)
      | some tok =>
        let gs1 := releaseDrain gs0 tok
        some { gs1 with
          tasks := gs1.tasks.set tid { t with phase := .replaying tok, attempts := t.attempts + 1 } }
    | _ => none

/-- The starter's replay failed: the catch at 317 deletes the marker, resets
the flag and rethrows through `handleError`; the catch at 323 rejects (with
that error) any waiter that enqueued *during the replay*, deletes and resets
again, and rethrows with status 401; the outer catch at 354 wraps once more. -/
def starterReplayFail (gs : GState) (tid : Nat) (t : Task) (th : Thrown) : GState :=
  let gs1 := rejectDrain gs (.apiErr (handleError th none))
  { gs1 with
    retryMap := rmDelete gs1.retryMap t.ctx.requestId,
    isRefreshing := false,
    tasks := gs1.tasks.set tid { t with phase := .settledErr (starterReplayErr th) } }

/-- A replay fetch settles.  Starter (lines 296-329 + 354-365): success
deletes the marker, resets the flag and returns (309-316); failure runs
`starterReplayFail`.  Released waiter (lines 229-256): success resolves
(242-247), failure rejects with the single wrapping at 251; neither touches
the flag or the queue. -/
def doDeliverReplay (gs : GState) (tid : Nat) (out : FetchOutcome) : Option GState :=
  match gs.tasks[tid]? with
  | none => none
  | some t =>
    match t.phase with
    | .replaying _ =>
      match out with
      | .resp status b =>
        if respOk status then
          some { gs with
            retryMap := rmDelete gs.retryMap t.ctx.requestId,
            isRefreshing := false,
            tasks := gs.tasks.set tid { t with phase := .settledOk (mkApiResponse b) } }
        else some (starterReplayFail gs tid t (replayThrown out))
      | _ => some (starterReplayFail gs tid t (replayThrown out))
    | .waiterReplaying _ =>
      match out with
      | .resp status b =>
        if respOk status then
          some { gs with
            retryMap := rmDelete gs.retryMap t.ctx.requestId,
            tasks := gs.tasks.set tid { t with phase := .settledOk (mkApiResponse b) } }
        else
          some { gs with
            retryMap := rmDelete gs.retryMap t.ctx.requestId,
            tasks := gs.tasks.set tid
              { t with phase := .settledErr (waiterReplayErr (replayThrown out)) } }
      | _ =>
        some { gs with
          retryMap := rmDelete gs.retryMap t.ctx.requestId,
          tasks := gs.tasks.set tid
            { t with phase := .settledErr (waiterReplayErr (replayThrown out)) } }
    | _ => none

/-- One scheduler step. -/
def step (gs : GState) : Act → Option GState
  | .spawn m u c tmo => some (doSpawn gs m u c tmo)
  | .deliverFirst tid out => doDeliverFirst gs tid out
  | .refreshRead tid => doRefreshRead gs tid
  | .deliverRefresh tid out => doDeliverRefresh gs tid out
  | .deliverReplay tid out => doDeliverReplay gs tid out
  | .tick => some { gs with now := gs.now + 1 }

/-- Run a schedule. -/
def run (gs : GState) : List Act → Option GState
  | [] => some gs
  | a :: acts =>
    match step gs a with
    | some gs' => run gs' acts
    | none => none

/-- The state at module load (lines 12-16, 505-508): flag down, queue and
map empty, no tasks; storage contents and default headers arbitrary. -/
def mkInit (st : Storage) (hd : List (String × String)) : GState :=
  ⟨0, false, [], [], st, hd, [], 0, []⟩

/-! ## The sequential, timed model of one `request` call

For the timeout behaviour (lines 186-201 and the replay copies at 225-226 /
292-293) the interleaving model is refined to a deterministic function of
one call, with the coordinator idle and the queue empty, where each attempt
carries an arrival time raced against the deadline. -/

/-- What the wire would deliver for an attempt, had it not been aborted. -/
inductive WireResult where
  | resp (status : Nat) (body : RespBody)
  | netErr (msg : String)
deriving Repr, DecidableEq

/-- Outcome of one attempt together with whether the abort controller fired. -/
structure AttemptResult where
  outcome : FetchOutcome
  aborted : Bool
deriving Repr, DecidableEq

/-- Lines 186-201 (and 225-233 / 292-300 for replays): an `AbortController`
is created, `setTimeout(() => controller.abort(), timeout)` arms a timer,
and `controller.signal` is passed to `fetch`.  If the wire result has not
arrived by the deadline, the timer fires, the signal aborts the transport,
and the fetch rejects with an `AbortError`; otherwise `clearTimeout` defuses
the timer and the wire result comes through unaborted. -/
def executeAttempt (timeout arrival : Nat) : WireResult → AttemptResult
  | .resp s b => if timeout < arrival then ⟨.abortErr, true⟩ else ⟨.resp s b, false⟩
  | .netErr m => if timeout < arrival then ⟨.abortErr, true⟩ else ⟨.netErr m, false⟩

/-- The environment of one sequential call: timing and wire result of the
first attempt, the refresh-exchange outcome, and timing and wire result of
the replay (each used only if that stage is reached). -/
structure SeqEnv where
  firstArrival : Nat
  firstWire : WireResult
  refreshOut : RefreshOutcome
  replayArrival : Nat
  replayWire : WireResult
deriving Repr, DecidableEq

deriving instance DecidableEq for Except

/-- Everything observable about one sequential call: the settled result,
which attempts were issued/aborted, how many refresh POSTs went out, and
the final storage / default headers. -/
structure SeqOutcome where
  result : Except ApiError ApiResponse
  firstAborted : Bool
  replayIssued : Bool
  replayAborted : Bool
  refreshPosts : Nat
  attemptsIssued : Nat
  storage : Storage
  defaultHeaders : List (String × String)
deriving Repr, DecidableEq

/-- `request` (lines 158-366) for a single call against an idle coordinator
(`isRefreshing` false, `failedQueue` empty, `hasRetried` false for the fresh
id) with the timeout race made explicit. -/
def requestSeq (st : Storage) (defaults : List (String × String)) (url : String)
    (timeout : Nat) (env : SeqEnv) : SeqOutcome :=
  let isRef := includesSub url refreshPath
  let a1 := executeAttempt timeout env.firstArrival env.firstWire
  match a1.outcome with
  | .abortErr =>
      -- lines 354-363: AbortError is mapped to the 408 ApiError
      ⟨.error ⟨timeoutErrMsg, some 408⟩, true, false, false, 0, 1, st, defaults⟩
  | .netErr m =>
      ⟨.error (outerWrap (.errObj "TypeError" m)), false, false, false, 0, 1, st, defaults⟩
  | .resp status b =>
    if status = 401 ∧ isRef = false then
      -- lines 205-330 with an empty queue
      let r := refreshTokenFn st defaults env.refreshOut
      let posts := if jsFalsyStr st.refreshTok then 0 else 1
      match r.1 with
      | none =>
          ⟨.error authFailedFinalErr, false, false, false, posts, 1, r.2.1, r.2.2⟩
      | some _tok =>
        let a2 := executeAttempt timeout env.replayArrival env.replayWire
        match a2.outcome with
        | .resp s2 b2 =>
          if respOk s2 then
            ⟨.ok (mkApiResponse b2), false, true, false, posts, 2, r.2.1, r.2.2⟩
          else
            ⟨.error (starterReplayErr (replayThrown (.resp s2 b2))), false, true, false,
              posts, 2, r.2.1, r.2.2⟩
        | .netErr m2 =>
            ⟨.error (starterReplayErr (.errObj "TypeError" m2)), false, true, false,
              posts, 2, r.2.1, r.2.2⟩
        | .abortErr =>
            ⟨.error (starterReplayErr (.errObj "AbortError" "Aborted")), false, true, true,
              posts, 2, r.2.1, r.2.2⟩
    else
      if respOk status then
        ⟨.ok (mkApiResponse b), false, false, false, 0, 1, st, defaults⟩
      else
        ⟨.error (plainHttpErr status b), false, false, false, 0, 1, st, defaults⟩

/-! ## Phase classification and list lemmas -/

/-- Phases in which the task is performing the refresh dance itself: it has
entered the branch at line 267 and not yet settled.  At most one task may
ever be in such a phase (single-flight). -/
def Phase.busyP : Phase → Bool
  | .refreshInit | .refreshWaiting _ | .replaying _ => true
  | _ => false

/-- Settled phases: the promise returned by `request` has resolved or
rejected. -/
def Phase.settledP : Phase → Bool
  | .settledOk _ | .settledErr _ => true
  | _ => false

/-- Phases a task can be in after `retryMap.set(requestId, true)` (line 206)
and before its settling path deleted the marker. -/
def Phase.markedP : Phase → Bool
  | .refreshInit | .refreshWaiting _ | .replaying _ | .queued | .waiterReplaying _ => true
  | _ => false

theorem markedP_not_settledP (p : Phase) (h : p.markedP = true) : p.settledP = false := by
  cases p <;> simp_all [Phase.markedP, Phase.settledP]

theorem mapWithIdx_length {α : Type} (f : Nat → α → α) (k : Nat) (l : List α) :
    (mapWithIdx f k l).length = l.length := by
  induction l generalizing k with
  | nil => rfl
  | cons a as ih => simp [mapWithIdx, ih]

theorem mapWithIdx_getElem? {α : Type} (f : Nat → α → α) (k : Nat) (l : List α) (i : Nat) :
    (mapWithIdx f k l)[i]? = (l[i]?).map (f (k + i)) := by
  induction l generalizing k i with
  | nil => simp [mapWithIdx]
  | cons a as ih =>
    cases i with
    | zero => simp [mapWithIdx]
    | succ i =>
      have := ih (k + 1) i
      simpa [mapWithIdx, Nat.add_assoc, Nat.add_comm 1 i] using this

theorem mapWithIdx_getElem?_zero {α : Type} (f : Nat → α → α) (l : List α) (i : Nat) :
    (mapWithIdx f 0 l)[i]? = (l[i]?).map (f i) := by
  simpa using mapWithIdx_getElem? f 0 l i

theorem getElem?_set_self {α : Type} (l : List α) (i : Nat) (a : α) (h : i < l.length) :
    (l.set i a)[i]? = some a := by
  rw [List.getElem?_set]
  simp [h]

theorem getElem?_set_ne' {α : Type} (l : List α) (i j : Nat) (a : α) (h : i ≠ j) :
    (l.set i a)[j]? = l[j]? := by
  rw [List.getElem?_set]
  simp [h]

theorem getElem?_append_left' {α : Type} (l m : List α) (j : Nat) (h : j < l.length) :
    (l ++ m)[j]? = l[j]? := by
  rw [List.getElem?_append]
  simp [h]

theorem lt_length_of_getElem? {α : Type} {l : List α} {i : Nat} {a : α}
    (h : l[i]? = some a) : i < l.length := by
  by_contra hn
  rw [List.getElem?_eq_none (Nat.le_of_not_lt hn)] at h
  exact Option.noConfusion h

/-! ## The coordination invariant

All reachable states satisfy `Inv`, which packages:
single-flight (`busy_unique`, `idle_no_busy`); well-formedness of
`failedQueue` (`queue_queued`, `queue_nodup`); that every id in `retryMap`
belongs to a live marked task (`rm_witness`); and the attempt-count facts
behind no-double-retry (`att_le`, `att_one`, `att_two`).  The invariant only
reads `isRefreshing`, `failedQueue`, `retryMap` and `tasks`, so it is stated
on those four components. -/

/-- Task `i` of `ts` exists and is in a refresh-performing phase. -/
def BusyAtL (ts : List Task) (i : Nat) : Prop :=
  ∃ u, ts[i]? = some u ∧ u.phase.busyP = true

/-- The request ids captured by the queued waiter closures. -/
def queuedIdsL (queue : List Nat) (ts : List Task) : List String :=
  queue.filterMap (fun i => (ts[i]?).map (fun t => t.ctx.requestId))

structure InvC (flag : Bool) (queue : List Nat) (rm : List String) (ts : List Task) : Prop where
  busy_unique : ∀ i j, BusyAtL ts i → BusyAtL ts j → i = j
  idle_no_busy : flag = false → ∀ i, ¬ BusyAtL ts i
  queue_queued : ∀ i ∈ queue, ∃ t : Task, ts[i]? = some t ∧ t.phase = .queued
  queue_nodup : queue.Nodup
  rm_witness : ∀ id ∈ rm, ∃ (i : Nat) (t : Task),
    ts[i]? = some t ∧ t.ctx.requestId = id ∧ t.phase.markedP = true
  att_le : ∀ (i : Nat) (t : Task), ts[i]? = some t → t.attempts ≤ 2
  att_one : ∀ (i : Nat) (t : Task), ts[i]? = some t →
    (t.phase = .fetching ∨ t.phase = .refreshInit ∨ (∃ s, t.phase = .refreshWaiting s) ∨
      t.phase = .queued) → t.attempts = 1
  att_two : ∀ (i : Nat) (t : Task), ts[i]? = some t →
    ((∃ s, t.phase = .replaying s) ∨ (∃ s, t.phase = .waiterReplaying s)) → t.attempts = 2

def Inv (gs : GState) : Prop := InvC gs.isRefreshing gs.failedQueue gs.retryMap gs.tasks

theorem settledP_not_busyP (p : Phase) (h : p.settledP = true) : p.busyP = false := by
  cases p <;> simp_all [Phase.settledP, Phase.busyP]

theorem settledP_not_markedP (p : Phase) (h : p.settledP = true) : p.markedP = false := by
  cases p <;> simp_all [Phase.settledP, Phase.markedP]

theorem busyAtL_set_of_nonbusy {ts : List Task} {tid : Nat} {u' : Task}
    (hu : u'.phase.busyP = false) {i : Nat} (h : BusyAtL (ts.set tid u') i) : BusyAtL ts i := by
  obtain ⟨u, hl, hb⟩ := h
  by_cases hit : tid = i
  · subst hit
    rw [List.getElem?_set, if_pos rfl] at hl
    by_cases hlt : tid < ts.length
    · rw [if_pos hlt] at hl
      cases hl
      rw [hu] at hb
      simp at hb
    · rw [if_neg hlt] at hl
      exact Option.noConfusion hl
  · rw [List.getElem?_set, if_neg hit] at hl
    exact ⟨u, hl, hb⟩

theorem busyAtL_mapWithIdx {f : Nat → Task → Task}
    (hf : ∀ i t, ((f i t).phase.busyP = true) ↔ (t.phase.busyP = true))
    (ts : List Task) (i : Nat) :
    BusyAtL (mapWithIdx f 0 ts) i ↔ BusyAtL ts i := by
  unfold BusyAtL
  rw [mapWithIdx_getElem?_zero]
  cases hl : ts[i]? with
  | none => simp
  | some u => simp [hf i u]

theorem drainF_busy_iff (queue : List Nat) (e : ApiError) (i : Nat) (t : Task) :
    (((if i ∈ queue ∧ t.phase = .queued then { t with phase := .settledErr e } else t)).phase.busyP
      = true) ↔ (t.phase.busyP = true) := by
  split
  · rename_i hc
    simp [Phase.busyP, hc.2]
  · exact Iff.rfl

theorem releaseF_busy_iff (queue : List Nat) (tok : String) (i : Nat) (t : Task) :
    (((if i ∈ queue ∧ t.phase = .queued then
        { t with phase := .waiterReplaying tok, attempts := t.attempts + 1 } else t)).phase.busyP
      = true) ↔ (t.phase.busyP = true) := by
  split
  · rename_i hc
    simp [Phase.busyP, hc.2]
  · exact Iff.rfl

theorem mem_queuedIdsL {queue : List Nat} {ts : List Task} {i : Nat} {t : Task}
    (hi : i ∈ queue) (hl : ts[i]? = some t) : t.ctx.requestId ∈ queuedIdsL queue ts := by
  unfold queuedIdsL
  rw [List.mem_filterMap]
  exact ⟨i, hi, by rw [hl]; rfl⟩

/-- Settling a task that is neither refresh-busy nor queued, deleting its
marker (the shape of every direct-settle branch). -/
theorem invC_settle_plain (flag : Bool) (queue : List Nat) (rm : List String) (ts : List Task)
    (tid : Nat) (t : Task) (p' : Phase)
    (hI : InvC flag queue rm ts) (hl : ts[tid]? = some t)
    (hq : t.phase ≠ .queued) (hp' : p'.settledP = true) :
    InvC flag queue (rmDelete rm t.ctx.requestId) (ts.set tid { t with phase := p' }) := by
  have hlen := lt_length_of_getElem? hl
  have hnonbusy : ({ t with phase := p' } : Task).phase.busyP = false := settledP_not_busyP _ hp'
  constructor
  · intro i j hbi hbj
    exact hI.busy_unique i j (busyAtL_set_of_nonbusy hnonbusy hbi)
      (busyAtL_set_of_nonbusy hnonbusy hbj)
  · intro hf i hbi
    exact hI.idle_no_busy hf i (busyAtL_set_of_nonbusy hnonbusy hbi)
  · intro i hi
    obtain ⟨u, hul, huq⟩ := hI.queue_queued i hi
    refine ⟨u, ?_, huq⟩
    rw [getElem?_set_ne' _ _ _ _ ?_]
    · exact hul
    · intro hti
      subst hti
      rw [hl] at hul
      cases hul
      exact hq huq
  · exact hI.queue_nodup
  · intro id hid
    rw [rmDelete, List.mem_filter] at hid
    obtain ⟨hidm, hidne⟩ := hid
    obtain ⟨k, u, hul, hur, hum⟩ := hI.rm_witness id hidm
    have hkt : k ≠ tid := by
      intro hkt
      subst hkt
      rw [hl] at hul
      cases hul
      simp only [decide_eq_true_eq] at hidne
      exact hidne hur.symm
    exact ⟨k, u, by rw [getElem?_set_ne' _ _ _ _ (fun h => hkt h.symm)]; exact hul, hur, hum⟩
  · intro i u hul
    rw [List.getElem?_set] at hul
    by_cases hit : tid = i
    · simp only [hit, if_pos rfl, if_pos (hit ▸ hlen)] at hul
      cases hul
      exact hI.att_le tid t hl
    · rw [if_neg hit] at hul
      exact hI.att_le i u hul
  · intro i u hul hph
    rw [List.getElem?_set] at hul
    by_cases hit : tid = i
    · simp only [hit, if_pos rfl, if_pos (hit ▸ hlen)] at hul
      cases hul
      rcases hph with h | h | ⟨s, h⟩ | h <;>
        exact absurd h (by rw [show ({ t with phase := p' } : Task).phase = p' from rfl]
                           cases p' <;> simp_all [Phase.settledP])
    · rw [if_neg hit] at hul
      exact hI.att_one i u hul hph
  · intro i u hul hph
    rw [List.getElem?_set] at hul
    by_cases hit : tid = i
    · simp only [hit, if_pos rfl, if_pos (hit ▸ hlen)] at hul
      cases hul
      rcases hph with ⟨s, h⟩ | ⟨s, h⟩ <;>
        exact absurd h (by rw [show ({ t with phase := p' } : Task).phase = p' from rfl]
                           cases p' <;> simp_all [Phase.settledP])
    · rw [if_neg hit] at hul
      exact hI.att_two i u hul hph

theorem getElem?_set_cases {α : Type} {ts : List α} {tid : Nat} {u' : α} {i : Nat} {u : α}
    (h : (ts.set tid u')[i]? = some u) :
    (tid = i ∧ tid < ts.length ∧ u = u') ∨ (tid ≠ i ∧ ts[i]? = some u) := by
  by_cases hit : tid = i
  · subst hit
    rw [List.getElem?_set, if_pos rfl] at h
    by_cases hlt : tid < ts.length
    · rw [if_pos hlt] at h
      cases h
      exact Or.inl ⟨rfl, hlt, rfl⟩
    · rw [if_neg hlt] at h
      exact Option.noConfusion h
  · rw [List.getElem?_set, if_neg hit] at h
    exact Or.inr ⟨hit, h⟩

theorem busyAtL_set_cases {ts : List Task} {tid : Nat} {u' : Task} {i : Nat}
    (h : BusyAtL (ts.set tid u') i) : tid = i ∨ BusyAtL ts i := by
  obtain ⟨u, hl, hb⟩ := h
  rcases getElem?_set_cases hl with ⟨he, _, _⟩ | ⟨hne, hl'⟩
  · exact Or.inl he
  · exact Or.inr ⟨u, hl', hb⟩

theorem mem_rmSet {rm : List String} {rid id : String} (h : id ∈ rmSet rm rid) :
    id ∈ rm ∨ id = rid := by
  unfold rmSet at h
  split at h
  · exact Or.inl h
  · rw [List.mem_append, List.mem_singleton] at h
    exact h

theorem getElem?_append_one_cases {α : Type} {ts : List α} {c : α} {i : Nat} {u : α}
    (h : (ts ++ [c])[i]? = some u) : ts[i]? = some u ∨ (i = ts.length ∧ u = c) := by
  rcases Nat.lt_trichotomy i ts.length with hlt | heq | hgt
  · rw [getElem?_append_left' _ _ _ hlt] at h
    exact Or.inl h
  · subst heq
    rw [List.getElem?_append_right (Nat.le_refl _)] at h
    simp at h
    exact Or.inr ⟨rfl, h.symm⟩
  · rw [List.getElem?_append_right (Nat.le_of_lt hgt)] at h
    rw [List.getElem?_eq_none] at h
    · exact Option.noConfusion h
    · simp
      omega

/-- A 401 arriving while a refresh is in flight: the caller enqueues
(lines 209-263). -/
theorem invC_enqueue (queue : List Nat) (rm : List String) (ts : List Task) (tid : Nat) (t : Task)
    (hI : InvC true queue rm ts) (hl : ts[tid]? = some t) (hf : t.phase = .fetching) :
    InvC true (queue ++ [tid]) (rmSet rm t.ctx.requestId)
      (ts.set tid { t with phase := .queued }) := by
  have hlen := lt_length_of_getElem? hl
  have htidq : tid ∉ queue := by
    intro hmem
    obtain ⟨u, hul, huq⟩ := hI.queue_queued tid hmem
    rw [hl] at hul
    cases hul
    rw [hf] at huq
    exact Phase.noConfusion huq
  constructor
  · intro i j hbi hbj
    exact hI.busy_unique i j (busyAtL_set_of_nonbusy (by simp [Phase.busyP]) hbi)
      (busyAtL_set_of_nonbusy (by simp [Phase.busyP]) hbj)
  · intro hfl
    exact absurd hfl (by simp)
  · intro i hi
    rw [List.mem_append, List.mem_singleton] at hi
    rcases hi with hi | hi
    · obtain ⟨u, hul, huq⟩ := hI.queue_queued i hi
      have hne : tid ≠ i := by
        intro h
        subst h
        rw [hl] at hul
        cases hul
        rw [hf] at huq
        exact Phase.noConfusion huq
      exact ⟨u, by rw [getElem?_set_ne' _ _ _ _ hne]; exact hul, huq⟩
    · subst hi
      exact ⟨_, getElem?_set_self _ _ _ hlen, rfl⟩
  · rw [List.nodup_append]
    exact ⟨hI.queue_nodup, List.nodup_singleton tid, by simpa [List.disjoint_left] using htidq⟩
  · intro id hid
    rcases mem_rmSet hid with hid' | hid'
    · obtain ⟨k, u, hul, hur, hum⟩ := hI.rm_witness id hid'
      have hne : tid ≠ k := by
        intro h
        subst h
        rw [hl] at hul
        cases hul
        rw [hf] at hum
        exact absurd hum (by simp [Phase.markedP])
      exact ⟨k, u, by rw [getElem?_set_ne' _ _ _ _ hne]; exact hul, hur, hum⟩
    · subst hid'
      exact ⟨tid, _, getElem?_set_self _ _ _ hlen, rfl, by simp [Phase.markedP]⟩
  · intro i u hul
    rcases getElem?_set_cases hul with ⟨_, _, he⟩ | ⟨_, hl'⟩
    · subst he
      exact hI.att_le tid t hl
    · exact hI.att_le i u hl'
  · intro i u hul hph
    rcases getElem?_set_cases hul with ⟨_, _, he⟩ | ⟨_, hl'⟩
    · subst he
      exact hI.att_one tid t hl (Or.inl hf)
    · exact hI.att_one i u hl' hph
  · intro i u hul hph
    rcases getElem?_set_cases hul with ⟨_, _, he⟩ | ⟨_, hl'⟩
    · subst he
      rcases hph with ⟨s, h⟩ | ⟨s, h⟩ <;> exact Phase.noConfusion h
    · exact hI.att_two i u hl' hph

/-- A 401 arriving while the coordinator is idle: the caller sets the flag
and becomes the refresh starter (lines 267-270). -/
theorem invC_start_refresh (queue : List Nat) (rm : List String) (ts : List Task) (tid : Nat)
    (t : Task)
    (hI : InvC false queue rm ts) (hl : ts[tid]? = some t) (hf : t.phase = .fetching) :
    InvC true queue (rmSet rm t.ctx.requestId)
      (ts.set tid { t with phase := .refreshInit }) := by
  have hlen := lt_length_of_getElem? hl
  constructor
  · intro i j hbi hbj
    have hi : tid = i := by
      rcases busyAtL_set_cases hbi with h | h
      · exact h
      · exact absurd h (hI.idle_no_busy rfl i)
    have hj : tid = j := by
      rcases busyAtL_set_cases hbj with h | h
      · exact h
      · exact absurd h (hI.idle_no_busy rfl j)
    rw [← hi, ← hj]
  · intro hfl
    exact absurd hfl (by simp)
  · intro i hi
    obtain ⟨u, hul, huq⟩ := hI.queue_queued i hi
    have hne : tid ≠ i := by
      intro h
      subst h
      rw [hl] at hul
      cases hul
      rw [hf] at huq
      exact Phase.noConfusion huq
    exact ⟨u, by rw [getElem?_set_ne' _ _ _ _ hne]; exact hul, huq⟩
  · exact hI.queue_nodup
  · intro id hid
    rcases mem_rmSet hid with hid' | hid'
    · obtain ⟨k, u, hul, hur, hum⟩ := hI.rm_witness id hid'
      have hne : tid ≠ k := by
        intro h
        subst h
        rw [hl] at hul
        cases hul
        rw [hf] at hum
        exact absurd hum (by simp [Phase.markedP])
      exact ⟨k, u, by rw [getElem?_set_ne' _ _ _ _ hne]; exact hul, hur, hum⟩
    · subst hid'
      exact ⟨tid, _, getElem?_set_self _ _ _ hlen, rfl, by simp [Phase.markedP]⟩
  · intro i u hul
    rcases getElem?_set_cases hul with ⟨_, _, he⟩ | ⟨_, hl'⟩
    · subst he
      exact hI.att_le tid t hl
    · exact hI.att_le i u hl'
  · intro i u hul hph
    rcases getElem?_set_cases hul with ⟨_, _, he⟩ | ⟨_, hl'⟩
    · subst he
      exact hI.att_one tid t hl (Or.inl hf)
    · exact hI.att_one i u hl' hph
  · intro i u hul hph
    rcases getElem?_set_cases hul with ⟨_, _, he⟩ | ⟨_, hl'⟩
    · subst he
      rcases hph with ⟨s, h⟩ | ⟨s, h⟩ <;> exact Phase.noConfusion h
    · exact hI.att_two i u hl' hph

/-- The starter moves from awaiting the stored token to awaiting the
refresh POST (lines 116-123). -/
theorem invC_refresh_post (flag : Bool) (queue : List Nat) (rm : List String) (ts : List Task)
    (tid : Nat) (t : Task) (rt : String)
    (hI : InvC flag queue rm ts) (hl : ts[tid]? = some t) (hf : t.phase = .refreshInit) :
    InvC flag queue rm (ts.set tid { t with phase := .refreshWaiting rt }) := by
  have hlen := lt_length_of_getElem? hl
  have hbusy : BusyAtL ts tid := ⟨t, hl, by rw [hf]; rfl⟩
  constructor
  · intro i j hbi hbj
    have hi : tid = i := by
      rcases busyAtL_set_cases hbi with h | h
      · exact h
      · exact hI.busy_unique tid i hbusy h
    have hj : tid = j := by
      rcases busyAtL_set_cases hbj with h | h
      · exact h
      · exact hI.busy_unique tid j hbusy h
    rw [← hi, ← hj]
  · intro hfl
    exact absurd hbusy (hI.idle_no_busy hfl tid)
  · intro i hi
    obtain ⟨u, hul, huq⟩ := hI.queue_queued i hi
    have hne : tid ≠ i := by
      intro h
      subst h
      rw [hl] at hul
      cases hul
      rw [hf] at huq
      exact Phase.noConfusion huq
    exact ⟨u, by rw [getElem?_set_ne' _ _ _ _ hne]; exact hul, huq⟩
  · exact hI.queue_nodup
  · intro id hid
    obtain ⟨k, u, hul, hur, hum⟩ := hI.rm_witness id hid
    by_cases hkt : tid = k
    · subst hkt
      rw [hl] at hul
      cases hul
      exact ⟨tid, _, getElem?_set_self _ _ _ hlen, hur, by simp [Phase.markedP]⟩
    · exact ⟨k, u, by rw [getElem?_set_ne' _ _ _ _ hkt]; exact hul, hur, hum⟩
  · intro i u hul
    rcases getElem?_set_cases hul with ⟨_, _, he⟩ | ⟨_, hl'⟩
    · subst he
      exact hI.att_le tid t hl
    · exact hI.att_le i u hl'
  · intro i u hul hph
    rcases getElem?_set_cases hul with ⟨_, _, he⟩ | ⟨_, hl'⟩
    · subst he
      exact hI.att_one tid t hl (Or.inr (Or.inl hf))
    · exact hI.att_one i u hl' hph
  · intro i u hul hph
    rcases getElem?_set_cases hul with ⟨_, _, he⟩ | ⟨_, hl'⟩
    · subst he
      rcases hph with ⟨s, h⟩ | ⟨s, h⟩ <;> exact Phase.noConfusion h
    · exact hI.att_two i u hl' hph

/-- The rejecting queue drain preserves the invariant (queue emptied,
members settled, their markers deleted). -/
theorem invC_rejectDrain (flag : Bool) (queue : List Nat) (rm : List String) (ts : List Task)
    (e : ApiError)
    (hI : InvC flag queue rm ts) :
    InvC flag [] (rm.filter (fun id => id ∉ queuedIdsL queue ts))
      (mapWithIdx (fun i t =>
        if i ∈ queue ∧ t.phase = .queued then { t with phase := .settledErr e } else t) 0 ts) := by
  have hbusy := busyAtL_mapWithIdx (f := fun i t =>
    if i ∈ queue ∧ t.phase = .queued then { t with phase := .settledErr e } else t)
    (drainF_busy_iff queue e) ts
  constructor
  · intro i j hbi hbj
    exact hI.busy_unique i j ((hbusy i).mp hbi) ((hbusy j).mp hbj)
  · intro hfl i hbi
    exact hI.idle_no_busy hfl i ((hbusy i).mp hbi)
  · intro i hi
    exact absurd hi (List.not_mem_nil i)
  · exact List.nodup_nil
  · intro id hid
    rw [List.mem_filter] at hid
    obtain ⟨hidm, hidq⟩ := hid
    simp only [decide_eq_true_eq] at hidq
    obtain ⟨k, u, hul, hur, hum⟩ := hI.rm_witness id hidm
    have hnt : ¬(k ∈ queue ∧ u.phase = .queued) := by
      intro ⟨hkq, _⟩
      exact hidq (hur ▸ mem_queuedIdsL hkq hul)
    refine ⟨k, u, ?_, hur, hum⟩
    rw [mapWithIdx_getElem?_zero, hul]
    simp [hnt]
  · intro i u hul
    rw [mapWithIdx_getElem?_zero] at hul
    cases hl0 : ts[i]? with
    | none => rw [hl0] at hul; exact Option.noConfusion hul
    | some v =>
      rw [hl0] at hul
      cases hul
      by_cases hc : i ∈ queue ∧ v.phase = .queued
      · simp only [if_pos hc]
        exact hI.att_le i v hl0
      · simp only [if_neg hc]
        exact hI.att_le i v hl0
  · intro i u hul hph
    rw [mapWithIdx_getElem?_zero] at hul
    cases hl0 : ts[i]? with
    | none => rw [hl0] at hul; exact Option.noConfusion hul
    | some v =>
      rw [hl0] at hul
      cases hul
      by_cases hc : i ∈ queue ∧ v.phase = .queued
      · simp only [if_pos hc] at hph
        rcases hph with h | h | ⟨s, h⟩ | h <;> exact Phase.noConfusion h
      · simp only [if_neg hc] at hph ⊢
        exact hI.att_one i v hl0 hph
  · intro i u hul hph
    rw [mapWithIdx_getElem?_zero] at hul
    cases hl0 : ts[i]? with
    | none => rw [hl0] at hul; exact Option.noConfusion hul
    | some v =>
      rw [hl0] at hul
      cases hul
      by_cases hc : i ∈ queue ∧ v.phase = .queued
      · simp only [if_pos hc] at hph
        rcases hph with ⟨s, h⟩ | ⟨s, h⟩ <;> exact Phase.noConfusion h
      · simp only [if_neg hc] at hph ⊢
        exact hI.att_two i v hl0 hph

/-- The releasing queue drain preserves the invariant (queue emptied,
members move to their replay with the shared token). -/
theorem invC_releaseDrain (flag : Bool) (queue : List Nat) (rm : List String) (ts : List Task)
    (tok : String)
    (hI : InvC flag queue rm ts) :
    InvC flag [] rm
      (mapWithIdx (fun i t =>
        if i ∈ queue ∧ t.phase = .queued then
          { t with phase := .waiterReplaying tok, attempts := t.attempts + 1 } else t) 0 ts) := by
  have hbusy := busyAtL_mapWithIdx (f := fun i t =>
    if i ∈ queue ∧ t.phase = .queued then
      { t with phase := .waiterReplaying tok, attempts := t.attempts + 1 } else t)
    (releaseF_busy_iff queue tok) ts
  constructor
  · intro i j hbi hbj
    exact hI.busy_unique i j ((hbusy i).mp hbi) ((hbusy j).mp hbj)
  · intro hfl i hbi
    exact hI.idle_no_busy hfl i ((hbusy i).mp hbi)
  · intro i hi
    exact absurd hi (List.not_mem_nil i)
  · exact List.nodup_nil
  · intro id hid
    obtain ⟨k, u, hul, hur, hum⟩ := hI.rm_witness id hid
    refine ⟨k, ?_, ?_, ?_, ?_⟩
    · exact if k ∈ queue ∧ u.phase = .queued then
        { u with phase := .waiterReplaying tok, attempts := u.attempts + 1 } else u
    · rw [mapWithIdx_getElem?_zero, hul]
      rfl
    · split <;> exact hur
    · split
      · simp [Phase.markedP]
      · exact hum
  · intro i u hul
    rw [mapWithIdx_getElem?_zero] at hul
    cases hl0 : ts[i]? with
    | none => rw [hl0] at hul; exact Option.noConfusion hul
    | some v =>
      rw [hl0] at hul
      cases hul
      by_cases hc : i ∈ queue ∧ v.phase = .queued
      · simp only [if_pos hc]
        have := hI.att_one i v hl0 (Or.inr (Or.inr (Or.inr hc.2)))
        omega
      · simp only [if_neg hc]
        exact hI.att_le i v hl0
  · intro i u hul hph
    rw [mapWithIdx_getElem?_zero] at hul
    cases hl0 : ts[i]? with
    | none => rw [hl0] at hul; exact Option.noConfusion hul
    | some v =>
      rw [hl0] at hul
      cases hul
      by_cases hc : i ∈ queue ∧ v.phase = .queued
      · simp only [if_pos hc] at hph
        rcases hph with h | h | ⟨s, h⟩ | h <;> exact Phase.noConfusion h
      · simp only [if_neg hc] at hph ⊢
        exact hI.att_one i v hl0 hph
  · intro i u hul hph
    rw [mapWithIdx_getElem?_zero] at hul
    cases hl0 : ts[i]? with
    | none => rw [hl0] at hul; exact Option.noConfusion hul
    | some v =>
      rw [hl0] at hul
      cases hul
      by_cases hc : i ∈ queue ∧ v.phase = .queued
      · simp only [if_pos hc]
        have := hI.att_one i v hl0 (Or.inr (Or.inr (Or.inr hc.2)))
        omega
      · simp only [if_neg hc] at hph ⊢
        exact hI.att_two i v hl0 hph

/-- The refresh starter settles (the tail of `refreshNullCont` /
`starterReplayFail` and the replay-success return): flag reset, marker
deleted, queue untouched. -/
theorem invC_settle_busy (flag : Bool) (queue : List Nat) (rm : List String) (ts : List Task)
    (tid : Nat) (t : Task) (p' : Phase)
    (hI : InvC flag queue rm ts) (hl : ts[tid]? = some t) (hb : t.phase.busyP = true)
    (hp' : p'.settledP = true) :
    InvC false queue (rmDelete rm t.ctx.requestId)
      (ts.set tid { t with phase := p' }) := by
  have hbusy : BusyAtL ts tid := ⟨t, hl, hb⟩
  have hnb : ∀ i, ¬ BusyAtL (ts.set tid { t with phase := p' }) i := by
    intro i hbi
    obtain ⟨u, hul, hub⟩ := hbi
    rcases getElem?_set_cases hul with ⟨_, _, he⟩ | ⟨hne, hl'⟩
    · subst he
      rw [show ({ t with phase := p' } : Task).phase = p' from rfl,
        settledP_not_busyP p' hp'] at hub
      exact Bool.noConfusion hub
    · exact hne (hI.busy_unique tid i hbusy ⟨u, hl', hub⟩)
  constructor
  · intro i j hbi _
    exact absurd hbi (hnb i)
  · intro _ i
    exact hnb i
  · intro i hi
    obtain ⟨u, hul, huq⟩ := hI.queue_queued i hi
    have hne : tid ≠ i := by
      intro he
      subst he
      rw [hl] at hul
      cases hul
      rw [huq] at hb
      exact Bool.noConfusion hb
    exact ⟨u, by rw [getElem?_set_ne' _ _ _ _ hne]; exact hul, huq⟩
  · exact hI.queue_nodup
  · intro id hid
    rw [rmDelete, List.mem_filter] at hid
    obtain ⟨hidm, hidne⟩ := hid
    simp only [decide_eq_true_eq] at hidne
    obtain ⟨k, u, hul, hur, hum⟩ := hI.rm_witness id hidm
    have hkt : tid ≠ k := by
      intro h
      subst h
      rw [hl] at hul
      cases hul
      exact hidne hur.symm
    exact ⟨k, u, by rw [getElem?_set_ne' _ _ _ _ hkt]; exact hul, hur, hum⟩
  · intro i u hul
    rcases getElem?_set_cases hul with ⟨_, _, he⟩ | ⟨_, hl'⟩
    · subst he
      exact hI.att_le tid t hl
    · exact hI.att_le i u hl'
  · intro i u hul hph
    rcases getElem?_set_cases hul with ⟨_, _, he⟩ | ⟨_, hl'⟩
    · subst he
      rcases hph with h | h | ⟨s, h⟩ | h <;>
        exact absurd h (by rw [show ({ t with phase := p' } : Task).phase = p' from rfl]
                           cases p' <;> simp_all [Phase.settledP])
    · exact hI.att_one i u hl' hph
  · intro i u hul hph
    rcases getElem?_set_cases hul with ⟨_, _, he⟩ | ⟨_, hl'⟩
    · subst he
      rcases hph with ⟨s, h⟩ | ⟨s, h⟩ <;>
        exact absurd h (by rw [show ({ t with phase := p' } : Task).phase = p' from rfl]
                           cases p' <;> simp_all [Phase.settledP])
    · exact hI.att_two i u hl' hph

/-- The starter moves to its replay after a successful exchange (the tail of
the `doDeliverRefresh` success branch, applied after the release drain). -/
theorem invC_replay_start (flag : Bool) (rm : List String) (ts : List Task) (tid : Nat) (t : Task)
    (tok : String) (s : String)
    (hI : InvC flag [] rm ts) (hl : ts[tid]? = some t) (hw : t.phase = .refreshWaiting s) :
    InvC flag [] rm
      (ts.set tid { t with phase := .replaying tok, attempts := t.attempts + 1 }) := by
  have hlen := lt_length_of_getElem? hl
  have hbusy : BusyAtL ts tid := ⟨t, hl, by rw [hw]; rfl⟩
  constructor
  · intro i j hbi hbj
    have hi : tid = i := by
      rcases busyAtL_set_cases hbi with h | h
      · exact h
      · exact hI.busy_unique tid i hbusy h
    have hj : tid = j := by
      rcases busyAtL_set_cases hbj with h | h
      · exact h
      · exact hI.busy_unique tid j hbusy h
    rw [← hi, ← hj]
  · intro hfl
    exact absurd hbusy (hI.idle_no_busy hfl tid)
  · intro i hi
    exact absurd hi (List.not_mem_nil i)
  · exact List.nodup_nil
  · intro id hid
    obtain ⟨k, u, hul, hur, hum⟩ := hI.rm_witness id hid
    by_cases hkt : tid = k
    · subst hkt
      rw [hl] at hul
      cases hul
      exact ⟨tid, _, getElem?_set_self _ _ _ hlen, hur, by simp [Phase.markedP]⟩
    · exact ⟨k, u, by rw [getElem?_set_ne' _ _ _ _ hkt]; exact hul, hur, hum⟩
  · intro i u hul
    rcases getElem?_set_cases hul with ⟨_, _, he⟩ | ⟨_, hl'⟩
    · subst he
      have := hI.att_one tid t hl (Or.inr (Or.inr (Or.inl ⟨s, hw⟩)))
      simp only []
      omega
    · exact hI.att_le i u hl'
  · intro i u hul hph
    rcases getElem?_set_cases hul with ⟨_, _, he⟩ | ⟨_, hl'⟩
    · subst he
      rcases hph with h | h | ⟨s', h⟩ | h <;> exact Phase.noConfusion h
    · exact hI.att_one i u hl' hph
  · intro i u hul hph
    rcases getElem?_set_cases hul with ⟨_, _, he⟩ | ⟨_, hl'⟩
    · subst he
      have := hI.att_one tid t hl (Or.inr (Or.inr (Or.inl ⟨s, hw⟩)))
      simp only []
      omega
    · exact hI.att_two i u hl' hph

/-- Spawning a fresh task (the prologue). -/
theorem invC_spawn (flag : Bool) (queue : List Nat) (rm : List String) (ts : List Task) (c : Task)
    (hI : InvC flag queue rm ts) (hc : c.phase = .fetching) (hca : c.attempts = 1) :
    InvC flag queue rm (ts ++ [c]) := by
  have hbusy : ∀ i, BusyAtL (ts ++ [c]) i → BusyAtL ts i := by
    intro i hbi
    obtain ⟨u, hul, hub⟩ := hbi
    rcases getElem?_append_one_cases hul with hl' | ⟨_, he⟩
    · exact ⟨u, hl', hub⟩
    · subst he
      rw [hc] at hub
      exact absurd hub (by simp [Phase.busyP])
  constructor
  · intro i j hbi hbj
    exact hI.busy_unique i j (hbusy i hbi) (hbusy j hbj)
  · intro hfl i hbi
    exact hI.idle_no_busy hfl i (hbusy i hbi)
  · intro i hi
    obtain ⟨u, hul, huq⟩ := hI.queue_queued i hi
    exact ⟨u, by rw [getElem?_append_left' _ _ _ (lt_length_of_getElem? hul)]; exact hul, huq⟩
  · exact hI.queue_nodup
  · intro id hid
    obtain ⟨k, u, hul, hur, hum⟩ := hI.rm_witness id hid
    exact ⟨k, u, by rw [getElem?_append_left' _ _ _ (lt_length_of_getElem? hul)]; exact hul,
      hur, hum⟩
  · intro i u hul
    rcases getElem?_append_one_cases hul with hl' | ⟨_, he⟩
    · exact hI.att_le i u hl'
    · subst he
      omega
  · intro i u hul hph
    rcases getElem?_append_one_cases hul with hl' | ⟨_, he⟩
    · exact hI.att_one i u hl' hph
    · subst he
      exact hca
  · intro i u hul hph
    rcases getElem?_append_one_cases hul with hl' | ⟨_, he⟩
    · exact hI.att_two i u hl' hph
    · subst he
      rw [hc] at hph
      rcases hph with ⟨s, h⟩ | ⟨s, h⟩ <;> exact Phase.noConfusion h

/-- Every step preserves the coordination invariant. -/
theorem inv_step (gs : GState) (a : Act) (gs' : GState)
    (hI : Inv gs) (h : step gs a = some gs') : Inv gs' := by
  cases a with
  | spawn m u c tmo =>
    simp only [step, doSpawn] at h
    cases h
    exact invC_spawn _ _ _ _ _ hI rfl rfl
  | tick =>
    simp only [step] at h
    cases h
    exact hI
  | deliverFirst tid out =>
    simp only [step, doDeliverFirst] at h
    cases hl : gs.tasks[tid]? with
    | none => rw [hl] at h; exact Option.noConfusion h
    | some t =>
      rw [hl] at h
      dsimp only at h
      cases hp : t.phase <;> rw [hp] at h <;> dsimp only at h <;>
        try exact Option.noConfusion h
      cases out with
      | resp status b =>
        dsimp only at h
        by_cases hguard : status = 401 ∧ t.ctx.hasRetried = false ∧
            t.ctx.isRefreshEndpoint = false
        · rw [if_pos hguard] at h
          by_cases hr : gs.isRefreshing
          · rw [if_pos hr] at h
            cases h
            show InvC gs.isRefreshing _ _ _
            rw [hr]
            exact invC_enqueue _ _ _ _ _ (hr ▸ hI) hl hp
          · rw [if_neg hr] at h
            cases h
            show InvC true _ _ _
            exact invC_start_refresh _ _ _ _ _
              ((Bool.not_eq_true gs.isRefreshing ▸ hr) ▸ hI) hl hp
        · rw [if_neg hguard] at h
          by_cases hok : respOk status = true
          · rw [if_pos hok] at h
            cases h
            exact invC_settle_plain _ _ _ _ _ _ _ hI hl (hp ▸ fun hq => Phase.noConfusion hq) rfl
          · rw [if_neg (by simpa using hok)] at h
            cases h
            exact invC_settle_plain _ _ _ _ _ _ _ hI hl (hp ▸ fun hq => Phase.noConfusion hq) rfl
      | netErr msg =>
        dsimp only at h
        cases h
        exact invC_settle_plain _ _ _ _ _ _ _ hI hl (hp ▸ fun hq => Phase.noConfusion hq) rfl
      | abortErr =>
        dsimp only at h
        cases h
        exact invC_settle_plain _ _ _ _ _ _ _ hI hl (hp ▸ fun hq => Phase.noConfusion hq) rfl
  | refreshRead tid =>
    simp only [step, doRefreshRead] at h
    cases hl : gs.tasks[tid]? with
    | none => rw [hl] at h; exact Option.noConfusion h
    | some t =>
      rw [hl] at h
      dsimp only at h
      cases hp : t.phase <;> rw [hp] at h <;> dsimp only at h <;>
        try exact Option.noConfusion h
      cases hrt : gs.storage.refreshTok with
      | none =>
        rw [hrt] at h
        dsimp only at h
        cases h
        exact invC_settle_busy _ _ _ _ _ _ _
          (invC_rejectDrain _ _ _ _ _ hI)
          (by simp only [rejectDrain, releaseDrain]; rw [mapWithIdx_getElem?_zero, hl]; simp [hp])
          (by rw [hp]; rfl) rfl
      | some rt =>
        rw [hrt] at h
        dsimp only at h
        by_cases hrte : rt = ""
        · rw [if_pos hrte] at h
          cases h
          exact invC_settle_busy _ _ _ _ _ _ _
            (invC_rejectDrain _ _ _ _ _ hI)
            (by simp only [rejectDrain, releaseDrain]; rw [mapWithIdx_getElem?_zero, hl]; simp [hp])
            (by rw [hp]; rfl) rfl
        · rw [if_neg hrte] at h
          cases h
          exact invC_refresh_post _ _ _ _ _ _ _ hI hl hp
  | deliverRefresh tid out =>
    simp only [step, doDeliverRefresh] at h
    cases hl : gs.tasks[tid]? with
    | none => rw [hl] at h; exact Option.noConfusion h
    | some t =>
      rw [hl] at h
      dsimp only at h
      cases hp : t.phase <;> rw [hp] at h <;> dsimp only at h <;>
        try exact Option.noConfusion h
      rename_i sent
      cases out with
      | ok d =>
        simp only [refreshSettle] at h
        cases h
        exact invC_replay_start _ _ _ _ _ _ _
          (invC_releaseDrain _ _ _ _ _ hI)
          (by simp only [rejectDrain, releaseDrain]; rw [mapWithIdx_getElem?_zero, hl]; simp [hp])
          hp
      | httpErr status =>
        simp only [refreshSettle] at h
        cases h
        exact invC_settle_busy _ _ _ _ _ _ _
          (invC_rejectDrain _ _ _ _ _ hI)
          (by simp only [rejectDrain, releaseDrain]; rw [mapWithIdx_getElem?_zero, hl]; simp [hp])
          (by rw [hp]; rfl) rfl
      | netErr msg =>
        simp only [refreshSettle] at h
        cases h
        exact invC_settle_busy _ _ _ _ _ _ _
          (invC_rejectDrain _ _ _ _ _ hI)
          (by simp only [rejectDrain, releaseDrain]; rw [mapWithIdx_getElem?_zero, hl]; simp [hp])
          (by rw [hp]; rfl) rfl
  | deliverReplay tid out =>
    simp only [step, doDeliverReplay] at h
    cases hl : gs.tasks[tid]? with
    | none => rw [hl] at h; exact Option.noConfusion h
    | some t =>
      rw [hl] at h
      dsimp only at h
      cases hp : t.phase <;> rw [hp] at h <;> dsimp only at h <;>
        try exact Option.noConfusion h
      case replaying tok =>
        cases out with
        | resp status b =>
          dsimp only at h
          by_cases hok : respOk status = true
          · rw [if_pos hok] at h
            cases h
            exact invC_settle_busy _ _ _ _ _ _ _ hI hl (by rw [hp]; rfl) rfl
          · rw [if_neg (by simpa using hok)] at h
            cases h
            exact invC_settle_busy _ _ _ _ _ _ _
              (invC_rejectDrain _ _ _ _ _ hI)
              (by simp only [rejectDrain, releaseDrain]; rw [mapWithIdx_getElem?_zero, hl]; simp [hp])
              (by rw [hp]; rfl) rfl
        | netErr msg =>
          dsimp only at h
          cases h
          exact invC_settle_busy _ _ _ _ _ _ _
            (invC_rejectDrain _ _ _ _ _ hI)
            (by simp only [rejectDrain, releaseDrain]; rw [mapWithIdx_getElem?_zero, hl]; simp [hp])
            (by rw [hp]; rfl) rfl
        | abortErr =>
          dsimp only at h
          cases h
          exact invC_settle_busy _ _ _ _ _ _ _
            (invC_rejectDrain _ _ _ _ _ hI)
            (by simp only [rejectDrain, releaseDrain]; rw [mapWithIdx_getElem?_zero, hl]; simp [hp])
            (by rw [hp]; rfl) rfl
      case waiterReplaying tok =>
        cases out with
        | resp status b =>
          dsimp only at h
          by_cases hok : respOk status = true
          · rw [if_pos hok] at h
            cases h
            exact invC_settle_plain _ _ _ _ _ _ _ hI hl (hp ▸ fun hq => Phase.noConfusion hq) rfl
          · rw [if_neg (by simpa using hok)] at h
            cases h
            exact invC_settle_plain _ _ _ _ _ _ _ hI hl (hp ▸ fun hq => Phase.noConfusion hq) rfl
        | netErr msg =>
          dsimp only at h
          cases h
          exact invC_settle_plain _ _ _ _ _ _ _ hI hl (hp ▸ fun hq => Phase.noConfusion hq) rfl
        | abortErr =>
          dsimp only at h
          cases h
          exact invC_settle_plain _ _ _ _ _ _ _ hI hl (hp ▸ fun hq => Phase.noConfusion hq) rfl

/-- The initial state satisfies the invariant. -/
theorem inv_mkInit (st : Storage) (hd : List (String × String)) : Inv (mkInit st hd) := by
  constructor <;> simp [mkInit, BusyAtL]

/-- The invariant holds along every run. -/
theorem run_inv : ∀ (acts : List Act) (gs gs' : GState),
    Inv gs → run gs acts = some gs' → Inv gs'
  | [], gs, gs', hI, h => by
    simp only [run] at h
    cases h
    exact hI
  | a :: acts, gs, gs', hI, h => by
    simp only [run] at h
    cases hs : step gs a with
    | none => rw [hs] at h; exact Option.noConfusion h
    | some gs1 =>
      rw [hs] at h
      exact run_inv acts gs1 gs' (inv_step gs a gs1 hI hs) h

/-- Every state reachable from a fresh module load satisfies the invariant. -/
theorem reachable_inv (st : Storage) (hd : List (String × String)) (acts : List Act)
    (gs : GState) (h : run (mkInit st hd) acts = some gs) : Inv gs :=
  run_inv acts (mkInit st hd) gs (inv_mkInit st hd) h

/-! ## Frame facts: what a step can and cannot change -/

/-- `FrameOk ts ts'`: every task survives with its context intact, and
settled tasks are entirely frozen. -/
def FrameOk (ts ts' : List Task) : Prop :=
  ∀ (i : Nat) (t : Task), ts[i]? = some t →
    ∃ t' : Task, ts'[i]? = some t' ∧ t'.ctx = t.ctx ∧ (t.phase.settledP = true → t' = t)

theorem frameOk_refl (ts : List Task) : FrameOk ts ts :=
  fun _ t h => ⟨t, h, rfl, fun _ => rfl⟩

theorem frameOk_trans {ts1 ts2 ts3 : List Task}
    (h12 : FrameOk ts1 ts2) (h23 : FrameOk ts2 ts3) : FrameOk ts1 ts3 := by
  intro i t hl
  obtain ⟨t2, hl2, hc2, hs2⟩ := h12 i t hl
  obtain ⟨t3, hl3, hc3, hs3⟩ := h23 i t2 hl2
  refine ⟨t3, hl3, hc3.trans hc2, fun hs => ?_⟩
  have h2 := hs2 hs
  rw [h2] at hs3
  exact hs3 hs

theorem frameOk_set {ts : List Task} {tid : Nat} {t0 u' : Task}
    (hl : ts[tid]? = some t0) (hctx : u'.ctx = t0.ctx) (hns : t0.phase.settledP = false) :
    FrameOk ts (ts.set tid u') := by
  intro i t hli
  by_cases hit : tid = i
  · subst hit
    rw [hl] at hli
    cases hli
    refine ⟨u', getElem?_set_self _ _ _ (lt_length_of_getElem? hl), hctx, fun hs => ?_⟩
    rw [hs] at hns
    exact Bool.noConfusion hns
  · exact ⟨t, by rw [getElem?_set_ne' _ _ _ _ hit]; exact hli, rfl, fun _ => rfl⟩

theorem frameOk_mapWithIdx {f : Nat → Task → Task}
    (hctx : ∀ i t, (f i t).ctx = t.ctx)
    (hs : ∀ i t, t.phase.settledP = true → f i t = t) (ts : List Task) :
    FrameOk ts (mapWithIdx f 0 ts) := by
  intro i t hl
  exact ⟨f i t, by rw [mapWithIdx_getElem?_zero, hl]; rfl, hctx i t, hs i t⟩

theorem frameOk_rejectDrain (gs : GState) (th : Thrown) :
    FrameOk gs.tasks (rejectDrain gs th).tasks := by
  refine frameOk_mapWithIdx ?_ ?_ gs.tasks
  · intro i t
    split <;> rfl
  · intro i t hset
    split
    · rename_i hc
      rw [hc.2] at hset
      exact Bool.noConfusion hset
    · rfl

theorem frameOk_releaseDrain (gs : GState) (tok : String) :
    FrameOk gs.tasks (releaseDrain gs tok).tasks := by
  refine frameOk_mapWithIdx ?_ ?_ gs.tasks
  · intro i t
    split <;> rfl
  · intro i t hset
    split
    · rename_i hc
      rw [hc.2] at hset
      exact Bool.noConfusion hset
    · rfl

theorem frameOk_append (ts : List Task) (c : Task) : FrameOk ts (ts ++ [c]) := by
  intro i t hl
  exact ⟨t, by rw [getElem?_append_left' _ _ _ (lt_length_of_getElem? hl)]; exact hl,
    rfl, fun _ => rfl⟩

theorem rejectDrain_lookup_skip (gs : GState) (th : Thrown) {tid : Nat} {t : Task}
    (hl : gs.tasks[tid]? = some t) (hq : t.phase ≠ .queued) :
    (rejectDrain gs th).tasks[tid]? = some t := by
  simp only [rejectDrain]
  rw [mapWithIdx_getElem?_zero, hl]
  simp [hq]

theorem releaseDrain_lookup_skip (gs : GState) (tok : String) {tid : Nat} {t : Task}
    (hl : gs.tasks[tid]? = some t) (hq : t.phase ≠ .queued) :
    (releaseDrain gs tok).tasks[tid]? = some t := by
  simp only [releaseDrain]
  rw [mapWithIdx_getElem?_zero, hl]
  simp [hq]

/-- Frame property of every step: caller-visible request data (`ctx`, which
carries the caller's config: method, url, headers, timeout) is never
mutated, settled tasks never change again, and the only step that touches
the stored credentials or the default headers is the settling of a refresh
exchange. -/
theorem step_frame (gs : GState) (a : Act) (gs' : GState) (h : step gs a = some gs') :
    FrameOk gs.tasks gs'.tasks ∧
    ((gs'.storage = gs.storage ∧ gs'.defaultHeaders = gs.defaultHeaders) ∨
      ∃ tid out, a = Act.deliverRefresh tid out) := by
  cases a with
  | spawn m u c tmo =>
    simp only [step, doSpawn] at h
    cases h
    exact ⟨frameOk_append _ _, Or.inl ⟨rfl, rfl⟩⟩
  | tick =>
    simp only [step] at h
    cases h
    exact ⟨frameOk_refl _, Or.inl ⟨rfl, rfl⟩⟩
  | deliverFirst tid out =>
    simp only [step, doDeliverFirst] at h
    cases hl : gs.tasks[tid]? with
    | none => rw [hl] at h; exact Option.noConfusion h
    | some t =>
      rw [hl] at h
      dsimp only at h
      cases hp : t.phase <;> rw [hp] at h <;> dsimp only at h <;>
        try exact Option.noConfusion h
      cases out with
      | resp status b =>
        dsimp only at h
        split at h
        · split at h <;>
          · cases h
            exact ⟨frameOk_set hl rfl (by rw [hp]; rfl), Or.inl ⟨rfl, rfl⟩⟩
        · split at h <;>
          · cases h
            exact ⟨frameOk_set hl rfl (by rw [hp]; rfl), Or.inl ⟨rfl, rfl⟩⟩
      | netErr msg =>
        dsimp only at h
        cases h
        exact ⟨frameOk_set hl rfl (by rw [hp]; rfl), Or.inl ⟨rfl, rfl⟩⟩
      | abortErr =>
        dsimp only at h
        cases h
        exact ⟨frameOk_set hl rfl (by rw [hp]; rfl), Or.inl ⟨rfl, rfl⟩⟩
  | refreshRead tid =>
    simp only [step, doRefreshRead] at h
    cases hl : gs.tasks[tid]? with
    | none => rw [hl] at h; exact Option.noConfusion h
    | some t =>
      rw [hl] at h
      dsimp only at h
      cases hp : t.phase <;> rw [hp] at h <;> dsimp only at h <;>
        try exact Option.noConfusion h
      have hnq : t.phase ≠ Phase.queued := hp ▸ fun hq => Phase.noConfusion hq
      cases hrt : gs.storage.refreshTok with
      | none =>
        rw [hrt] at h
        dsimp only [refreshNullCont] at h
        cases h
        exact ⟨frameOk_trans (frameOk_rejectDrain gs _)
          (frameOk_set (rejectDrain_lookup_skip gs _ hl hnq) rfl (by rw [hp]; rfl)),
          Or.inl ⟨rfl, rfl⟩⟩
      | some rt =>
        rw [hrt] at h
        dsimp only at h
        split at h
        · dsimp only [refreshNullCont] at h
          cases h
          exact ⟨frameOk_trans (frameOk_rejectDrain gs _)
            (frameOk_set (rejectDrain_lookup_skip gs _ hl hnq) rfl (by rw [hp]; rfl)),
            Or.inl ⟨rfl, rfl⟩⟩
        · cases h
          exact ⟨frameOk_set hl rfl (by rw [hp]; rfl), Or.inl ⟨rfl, rfl⟩⟩
  | deliverRefresh tid out =>
    refine ⟨?_, Or.inr ⟨tid, out, rfl⟩⟩
    simp only [step, doDeliverRefresh] at h
    cases hl : gs.tasks[tid]? with
    | none => rw [hl] at h; exact Option.noConfusion h
    | some t =>
      rw [hl] at h
      dsimp only at h
      cases hp : t.phase <;> rw [hp] at h <;> dsimp only at h <;>
        try exact Option.noConfusion h
      rename_i sent
      have hnq : t.phase ≠ Phase.queued := hp ▸ fun hq => Phase.noConfusion hq
      cases out with
      | ok d =>
        simp only [refreshSettle] at h
        cases h
        exact frameOk_trans (frameOk_releaseDrain _ _)
          (frameOk_set (releaseDrain_lookup_skip _ _ hl hnq) rfl (by rw [hp]; rfl))
      | httpErr status =>
        simp only [refreshSettle] at h
        dsimp only [refreshNullCont] at h
        cases h
        exact frameOk_trans (frameOk_rejectDrain _ _)
          (frameOk_set (rejectDrain_lookup_skip _ _ hl hnq) rfl (by rw [hp]; rfl))
      | netErr msg =>
        simp only [refreshSettle] at h
        dsimp only [refreshNullCont] at h
        cases h
        exact frameOk_trans (frameOk_rejectDrain _ _)
          (frameOk_set (rejectDrain_lookup_skip _ _ hl hnq) rfl (by rw [hp]; rfl))
  | deliverReplay tid out =>
    simp only [step, doDeliverReplay] at h
    cases hl : gs.tasks[tid]? with
    | none => rw [hl] at h; exact Option.noConfusion h
    | some t =>
      rw [hl] at h
      dsimp only at h
      cases hp : t.phase <;> rw [hp] at h <;> dsimp only at h <;>
        try exact Option.noConfusion h
      case replaying tok =>
        have hnq : t.phase ≠ Phase.queued := hp ▸ fun hq => Phase.noConfusion hq
        cases out with
        | resp status b =>
          dsimp only at h
          split at h
          · cases h
            exact ⟨frameOk_set hl rfl (by rw [hp]; rfl), Or.inl ⟨rfl, rfl⟩⟩
          · dsimp only [starterReplayFail] at h
            cases h
            exact ⟨frameOk_trans (frameOk_rejectDrain _ _)
              (frameOk_set (rejectDrain_lookup_skip _ _ hl hnq) rfl (by rw [hp]; rfl)),
              Or.inl ⟨rfl, rfl⟩⟩
        | netErr msg =>
          dsimp only [starterReplayFail] at h
          cases h
          exact ⟨frameOk_trans (frameOk_rejectDrain _ _)
            (frameOk_set (rejectDrain_lookup_skip _ _ hl hnq) rfl (by rw [hp]; rfl)),
            Or.inl ⟨rfl, rfl⟩⟩
        | abortErr =>
          dsimp only [starterReplayFail] at h
          cases h
          exact ⟨frameOk_trans (frameOk_rejectDrain _ _)
            (frameOk_set (rejectDrain_lookup_skip _ _ hl hnq) rfl (by rw [hp]; rfl)),
            Or.inl ⟨rfl, rfl⟩⟩
      case waiterReplaying tok =>
        cases out with
        | resp status b =>
          dsimp only at h
          split at h <;>
          · cases h
            exact ⟨frameOk_set hl rfl (by rw [hp]; rfl), Or.inl ⟨rfl, rfl⟩⟩
        | netErr msg =>
          dsimp only at h
          cases h
          exact ⟨frameOk_set hl rfl (by rw [hp]; rfl), Or.inl ⟨rfl, rfl⟩⟩
        | abortErr =>
          dsimp only at h
          cases h
          exact ⟨frameOk_set hl rfl (by rw [hp]; rfl), Or.inl ⟨rfl, rfl⟩⟩

/-! ## Step equations: the exact post-state of each branch -/

/-- A 401 on a guarded first attempt while a refresh is in flight: the
caller marks its id and enqueues; nothing else changes (lines 205-263). -/
theorem deliverFirst_enqueue_eq (gs : GState) (tid : Nat) (t : Task) (b : RespBody)
    (hl : gs.tasks[tid]? = some t) (hp : t.phase = .fetching)
    (hr : t.ctx.hasRetried = false) (hrf : t.ctx.isRefreshEndpoint = false)
    (hflag : gs.isRefreshing = true) :
    step gs (.deliverFirst tid (.resp 401 b)) = some { gs with
      retryMap := rmSet gs.retryMap t.ctx.requestId,
      failedQueue := gs.failedQueue ++ [tid],
      tasks := gs.tasks.set tid { t with phase := .queued },
      log := gs.log ++ [.enq tid] } := by
  simp only [step, doDeliverFirst, hl]
  rw [hp]
  dsimp only
  rw [if_pos (And.intro (by trivial) (And.intro hr hrf)), if_pos hflag]

/-- A 401 on a guarded first attempt while the coordinator is idle: the
caller marks its id, raises the flag and enters the refresh (lines
205-206, 267). -/
theorem deliverFirst_start_eq (gs : GState) (tid : Nat) (t : Task) (b : RespBody)
    (hl : gs.tasks[tid]? = some t) (hp : t.phase = .fetching)
    (hr : t.ctx.hasRetried = false) (hrf : t.ctx.isRefreshEndpoint = false)
    (hflag : gs.isRefreshing = false) :
    step gs (.deliverFirst tid (.resp 401 b)) = some { gs with
      retryMap := rmSet gs.retryMap t.ctx.requestId,
      isRefreshing := true,
      tasks := gs.tasks.set tid { t with phase := .refreshInit } } := by
  simp only [step, doDeliverFirst, hl]
  rw [hp]
  dsimp only
  rw [if_pos (And.intro (by trivial) (And.intro hr hrf)),
    if_neg (by rw [hflag]; exact Bool.false_ne_true)]

/-- A first response that does not enter the 401-retry branch (non-401, or
`hasRetried`, or the refresh endpoint) with a non-2xx status surfaces
directly (lines 332-346, 354-365). -/
theorem deliverFirst_surface_eq (gs : GState) (tid : Nat) (t : Task) (status : Nat) (b : RespBody)
    (hl : gs.tasks[tid]? = some t) (hp : t.phase = .fetching)
    (hg : ¬(status = 401 ∧ t.ctx.hasRetried = false ∧ t.ctx.isRefreshEndpoint = false))
    (hnok : respOk status = false) :
    step gs (.deliverFirst tid (.resp status b)) = some { gs with
      retryMap := rmDelete gs.retryMap t.ctx.requestId,
      tasks := gs.tasks.set tid { t with phase := .settledErr (plainHttpErr status b) } } := by
  simp only [step, doDeliverFirst, hl]
  rw [hp]
  dsimp only
  rw [if_neg hg, if_neg (by rw [hnok]; exact Bool.false_ne_true)]

/-- A first response outside the 401-retry branch with a 2xx status resolves
(lines 348-353). -/
theorem deliverFirst_ok_eq (gs : GState) (tid : Nat) (t : Task) (status : Nat) (b : RespBody)
    (hl : gs.tasks[tid]? = some t) (hp : t.phase = .fetching)
    (hg : ¬(status = 401 ∧ t.ctx.hasRetried = false ∧ t.ctx.isRefreshEndpoint = false))
    (hok : respOk status = true) :
    step gs (.deliverFirst tid (.resp status b)) = some { gs with
      retryMap := rmDelete gs.retryMap t.ctx.requestId,
      tasks := gs.tasks.set tid { t with phase := .settledOk (mkApiResponse b) } } := by
  simp only [step, doDeliverFirst, hl]
  rw [hp]
  dsimp only
  rw [if_neg hg, if_pos hok]

/-- The starter reads a usable stored refresh token and issues the POST
(lines 116-123): this is the only step that increments `refreshCount`. -/
theorem refreshRead_post_eq (gs : GState) (tid : Nat) (t : Task) (rt : String)
    (hl : gs.tasks[tid]? = some t) (hp : t.phase = .refreshInit)
    (hrt : gs.storage.refreshTok = some rt) (hrte : rt ≠ "") :
    step gs (.refreshRead tid) = some { gs with
      refreshCount := gs.refreshCount + 1,
      tasks := gs.tasks.set tid { t with phase := .refreshWaiting rt },
      log := gs.log ++ [.refreshIssued tid rt] } := by
  simp only [step, doRefreshRead, hl]
  rw [hp]
  dsimp only
  rw [hrt]
  dsimp only
  rw [if_neg hrte]

/-- The starter finds no usable stored refresh token: `refreshToken`
returns `null` at once and the null continuation runs (lines 110-113,
272-280, 323-328, 354-365). -/
theorem refreshRead_empty_eq (gs : GState) (tid : Nat) (t : Task)
    (hl : gs.tasks[tid]? = some t) (hp : t.phase = .refreshInit)
    (hrt : jsFalsyStr gs.storage.refreshTok = true) :
    step gs (.refreshRead tid) = some (refreshNullCont gs tid t) := by
  simp only [step, doRefreshRead, hl]
  rw [hp]
  dsimp only
  cases hx : gs.storage.refreshTok with
  | none => rfl
  | some rt =>
    rw [hx] at hrt
    simp only [jsFalsyStr] at hrt
    dsimp only
    rw [if_pos (by simpa using hrt)]

/-- The post-state of a successful refresh settling (the success branch of
`doDeliverRefresh` spelled out): new credentials stored, header set, queue
released with the new token, starter replaying; the flag still up. -/
def refreshOkState (gs : GState) (tid : Nat) (t : Task) (d : AuthData) : GState :=
  let gs0 := { gs with
    storage := ⟨some d.accessToken, some d.refreshTokenNew, some d.userJson⟩,
    defaultHeaders := objSet gs.defaultHeaders "Authorization" ("Bearer " ++ d.accessToken) }
  let gs1 := releaseDrain gs0 d.accessToken
  { gs1 with
    tasks := gs1.tasks.set tid
      { t with phase := .replaying d.accessToken, attempts := t.attempts + 1 } }

/-- The refresh POST succeeds: slots and the default `Authorization` header
are updated, every waiter is released with the new token, the starter
issues its replay; `isRefreshing` stays true (lines 129-139, 270-300). -/
theorem deliverRefresh_ok_eq (gs : GState) (tid : Nat) (t : Task) (sent : String) (d : AuthData)
    (hl : gs.tasks[tid]? = some t) (hp : t.phase = .refreshWaiting sent) :
    step gs (.deliverRefresh tid (.ok d)) = some (refreshOkState gs tid t d) := by
  simp only [step, doDeliverRefresh, hl]
  rw [hp]
  dsimp only
  rfl

/-- The refresh POST fails: slots cleared, header removed, and the null
continuation runs (lines 140-151, 272-280, 323-328, 354-365). -/
theorem deliverRefresh_fail_eq (gs : GState) (tid : Nat) (t : Task) (sent : String)
    (out : RefreshOutcome)
    (hl : gs.tasks[tid]? = some t) (hp : t.phase = .refreshWaiting sent)
    (hfail : out.isOk = false) :
    step gs (.deliverRefresh tid out) =
      some (refreshNullCont { gs with
        storage := emptyStorage,
        defaultHeaders := objDelete gs.defaultHeaders "Authorization" } tid t) := by
  cases out with
  | ok d => exact absurd hfail (by simp [RefreshOutcome.isOk])
  | httpErr status =>
    simp only [step, doDeliverRefresh, hl]
    rw [hp]
    dsimp only
    rfl
  | netErr msg =>
    simp only [step, doDeliverRefresh, hl]
    rw [hp]
    dsimp only
    rfl

/-- The starter's replay resolves 2xx: marker deleted, flag reset, success
returned; the queue (which may hold waiters that enqueued during the
replay) is left untouched (lines 309-316). -/
theorem deliverReplay_starter_ok_eq (gs : GState) (tid : Nat) (t : Task) (tok : String)
    (status : Nat) (b : RespBody)
    (hl : gs.tasks[tid]? = some t) (hp : t.phase = .replaying tok)
    (hok : respOk status = true) :
    step gs (.deliverReplay tid (.resp status b)) = some { gs with
      retryMap := rmDelete gs.retryMap t.ctx.requestId,
      isRefreshing := false,
      tasks := gs.tasks.set tid { t with phase := .settledOk (mkApiResponse b) } } := by
  simp only [step, doDeliverReplay, hl]
  rw [hp]
  dsimp only
  rw [if_pos hok]

/-- The starter's replay comes back non-2xx: the catch chain rejects any
late waiters, deletes the marker, resets the flag and settles the starter
(lines 305-329, 354-365). -/
theorem deliverReplay_starter_fail_eq (gs : GState) (tid : Nat) (t : Task) (tok : String)
    (status : Nat) (b : RespBody)
    (hl : gs.tasks[tid]? = some t) (hp : t.phase = .replaying tok)
    (hnok : respOk status = false) :
    step gs (.deliverReplay tid (.resp status b)) =
      some (starterReplayFail gs tid t (replayThrown (.resp status b))) := by
  simp only [step, doDeliverReplay, hl]
  rw [hp]
  dsimp only
  rw [if_neg (by rw [hnok]; exact Bool.false_ne_true)]

/-- A released waiter's replay resolves 2xx: marker deleted, success; the
flag and queue are untouched (lines 242-247). -/
theorem deliverReplay_waiter_ok_eq (gs : GState) (tid : Nat) (t : Task) (tok : String)
    (status : Nat) (b : RespBody)
    (hl : gs.tasks[tid]? = some t) (hp : t.phase = .waiterReplaying tok)
    (hok : respOk status = true) :
    step gs (.deliverReplay tid (.resp status b)) = some { gs with
      retryMap := rmDelete gs.retryMap t.ctx.requestId,
      tasks := gs.tasks.set tid { t with phase := .settledOk (mkApiResponse b) } } := by
  simp only [step, doDeliverReplay, hl]
  rw [hp]
  dsimp only
  rw [if_pos hok]

/-- A released waiter's replay comes back non-2xx: marker deleted, rejected
with the single wrapping of line 251; the flag and queue are untouched. -/
theorem deliverReplay_waiter_fail_eq (gs : GState) (tid : Nat) (t : Task) (tok : String)
    (status : Nat) (b : RespBody)
    (hl : gs.tasks[tid]? = some t) (hp : t.phase = .waiterReplaying tok)
    (hnok : respOk status = false) :
    step gs (.deliverReplay tid (.resp status b)) = some { gs with
      retryMap := rmDelete gs.retryMap t.ctx.requestId,
      tasks := gs.tasks.set tid
        { t with phase := .settledErr (waiterReplayErr (replayThrown (.resp status b))) } } := by
  simp only [step, doDeliverReplay, hl]
  rw [hp]
  dsimp only
  rw [if_neg (by rw [hnok]; exact Bool.false_ne_true)]

/-- While the refresh exchange is in flight (the starter sits in
`refreshWaiting`), no step other than the settling of that exchange touches
a queued waiter or removes it from the queue; the queue only grows at its
tail. -/
theorem no_release_while_inflight (gs : GState) (hI : Inv gs) (s : Nat) (ts : Task)
    (sent : String) (hls : gs.tasks[s]? = some ts) (hps : ts.phase = .refreshWaiting sent)
    (a : Act) (gs' : GState) (h : step gs a = some gs')
    (hna : ∀ out, a ≠ Act.deliverRefresh s out) :
    (∀ (i : Nat) (t : Task), i ∈ gs.failedQueue → gs.tasks[i]? = some t →
      gs'.tasks[i]? = some t ∧ i ∈ gs'.failedQueue) ∧
    (∃ l, gs'.failedQueue = gs.failedQueue ++ l) := by
  have hbusyS : BusyAtL gs.tasks s := ⟨ts, hls, by rw [hps]; rfl⟩
  have hqueued : ∀ (i : Nat) (t : Task), i ∈ gs.failedQueue → gs.tasks[i]? = some t →
      t.phase = Phase.queued := by
    intro i t hi hl
    obtain ⟨u, hul, huq⟩ := hI.queue_queued i hi
    rw [hl] at hul
    cases hul
    exact huq
  cases a with
  | spawn m u c tmo =>
    simp only [step, doSpawn] at h
    cases h
    refine ⟨fun i t hi hl => ⟨?_, hi⟩, [], by simp⟩
    rw [getElem?_append_left' _ _ _ (lt_length_of_getElem? hl)]
    exact hl
  | tick =>
    simp only [step] at h
    cases h
    exact ⟨fun i t hi hl => ⟨hl, hi⟩, [], by simp⟩
  | deliverFirst tid out =>
    simp only [step, doDeliverFirst] at h
    cases hl : gs.tasks[tid]? with
    | none => rw [hl] at h; exact Option.noConfusion h
    | some t0 =>
      rw [hl] at h
      dsimp only at h
      cases hp : t0.phase <;> rw [hp] at h <;> dsimp only at h <;>
        try exact Option.noConfusion h
      have hne : ∀ (i : Nat) (t : Task), i ∈ gs.failedQueue → gs.tasks[i]? = some t →
          tid ≠ i := by
        intro i t hi hli hti
        subst hti
        rw [hl] at hli
        cases hli
        rw [hqueued tid t0 hi hl] at hp
        exact Phase.noConfusion hp
      cases out with
      | resp status b =>
        dsimp only at h
        split at h
        · split at h <;> cases h
          · exact ⟨fun i t hi hli =>
              ⟨by rw [getElem?_set_ne' _ _ _ _ (hne i t hi hli)]; exact hli,
               by rw [List.mem_append]; exact Or.inl hi⟩, [tid], rfl⟩
          · exact ⟨fun i t hi hli =>
              ⟨by rw [getElem?_set_ne' _ _ _ _ (hne i t hi hli)]; exact hli, hi⟩,
              [], by simp⟩
        · split at h <;> cases h <;>
            exact ⟨fun i t hi hli =>
              ⟨by rw [getElem?_set_ne' _ _ _ _ (hne i t hi hli)]; exact hli, hi⟩,
              [], by simp⟩
      | netErr msg =>
        dsimp only at h
        cases h
        exact ⟨fun i t hi hli =>
          ⟨by rw [getElem?_set_ne' _ _ _ _ (hne i t hi hli)]; exact hli, hi⟩, [], by simp⟩
      | abortErr =>
        dsimp only at h
        cases h
        exact ⟨fun i t hi hli =>
          ⟨by rw [getElem?_set_ne' _ _ _ _ (hne i t hi hli)]; exact hli, hi⟩, [], by simp⟩
  | refreshRead tid =>
    simp only [step, doRefreshRead] at h
    cases hl : gs.tasks[tid]? with
    | none => rw [hl] at h; exact Option.noConfusion h
    | some t0 =>
      rw [hl] at h
      dsimp only at h
      cases hp : t0.phase <;> rw [hp] at h <;> dsimp only at h <;>
        try exact Option.noConfusion h
      exfalso
      have : tid = s := hI.busy_unique tid s ⟨t0, hl, by rw [hp]; rfl⟩ hbusyS
      subst this
      rw [hls] at hl
      cases hl
      rw [hps] at hp
      exact Phase.noConfusion hp
  | deliverRefresh tid out =>
    simp only [step, doDeliverRefresh] at h
    cases hl : gs.tasks[tid]? with
    | none => rw [hl] at h; exact Option.noConfusion h
    | some t0 =>
      rw [hl] at h
      dsimp only at h
      cases hp : t0.phase <;> rw [hp] at h <;> dsimp only at h <;>
        try exact Option.noConfusion h
      exfalso
      have : tid = s := hI.busy_unique tid s ⟨t0, hl, by rw [hp]; rfl⟩ hbusyS
      subst this
      exact hna out rfl
  | deliverReplay tid out =>
    simp only [step, doDeliverReplay] at h
    cases hl : gs.tasks[tid]? with
    | none => rw [hl] at h; exact Option.noConfusion h
    | some t0 =>
      rw [hl] at h
      dsimp only at h
      cases hp : t0.phase <;> rw [hp] at h <;> dsimp only at h <;>
        try exact Option.noConfusion h
      case replaying tok =>
        exfalso
        have : tid = s := hI.busy_unique tid s ⟨t0, hl, by rw [hp]; rfl⟩ hbusyS
        subst this
        rw [hls] at hl
        cases hl
        rw [hps] at hp
        exact Phase.noConfusion hp
      case waiterReplaying tok =>
        have hne : ∀ (i : Nat) (t : Task), i ∈ gs.failedQueue → gs.tasks[i]? = some t →
            tid ≠ i := by
          intro i t hi hli hti
          subst hti
          rw [hl] at hli
          cases hli
          rw [hqueued tid t0 hi hl] at hp
          exact Phase.noConfusion hp
        cases out with
        | resp status b =>
          dsimp only at h
          split at h <;> cases h <;>
            exact ⟨fun i t hi hli =>
              ⟨by rw [getElem?_set_ne' _ _ _ _ (hne i t hi hli)]; exact hli, hi⟩,
              [], by simp⟩
        | netErr msg =>
          dsimp only at h
          cases h
          exact ⟨fun i t hi hli =>
            ⟨by rw [getElem?_set_ne' _ _ _ _ (hne i t hi hli)]; exact hli, hi⟩, [], by simp⟩
        | abortErr =>
          dsimp only at h
          cases h
          exact ⟨fun i t hi hli =>
            ⟨by rw [getElem?_set_ne' _ _ _ _ (hne i t hi hli)]; exact hli, hi⟩, [], by simp⟩

/-! ## Concrete scenario data -/

def stA : Storage := ⟨some "A1", some "R1", some "U1"⟩

def hdA : List (String × String) := [("Content-Type", "application/json")]

def bEmpty : RespBody := ⟨none, none, ""⟩

def bPayload : RespBody := ⟨some "payload", some "ok", "w"⟩

def dA2 : AuthData := ⟨"A2", "R2", "U2"⟩

def urlA : String := "https://api.example.com/a"

def urlB : String := "https://api.example.com/b"

def urlC : String := "https://api.example.com/c"

/-- The three-concurrent-requests scenario of the spec: all three first
attempts come back 401 from an idle coordinator, the exchange runs once,
all three replays succeed. -/
def scenThree : List Act :=
  [ .spawn "GET" urlA [] 120000,
    .spawn "GET" urlB [] 120000,
    .spawn "GET" urlC [] 120000,
    .deliverFirst 0 (.resp 401 bEmpty),
    .deliverFirst 1 (.resp 401 bEmpty),
    .deliverFirst 2 (.resp 401 bEmpty),
    .refreshRead 0,
    .deliverRefresh 0 (.ok dA2),
    .deliverReplay 1 (.resp 200 bPayload),
    .deliverReplay 2 (.resp 200 bPayload),
    .deliverReplay 0 (.resp 200 bPayload) ]

def c1ctx : ReqCtx := ⟨"GET", urlA, [], 5, "GET:a:0", false, false, []⟩

def c1task : Task := ⟨c1ctx, .fetching, 1⟩

def c1gs : GState := ⟨0, true, [], [], stA, hdA, [c1task], 0, []⟩

/-! ## The claims -/

/-- C1: single-flight refresh.  (a) In every reachable state at most one
task is performing the refresh dance, and none is when `isRefreshing` is
down - so at most one refresh exchange is ever in flight.  (b) A caller
whose guarded first attempt receives a 401 while `isRefreshing` is up
enqueues a waiter in `failedQueue` and issues no exchange (`refreshCount`
unchanged).  (c) A caller observing the 401 while the coordinator is idle
raises the flag in the same atomic segment and becomes the refresh starter,
itself issuing no exchange yet.  (d) The starter alone issues the POST (the
only `refreshCount` increment).  (e) In the spec's three-concurrent-401
scenario exactly one exchange is issued regardless of the three callers,
the new token is stored, and all three requests succeed. -/
theorem C1_single_flight :
    (∀ (st : Storage) (hd : List (String × String)) (acts : List Act) (gs : GState),
      run (mkInit st hd) acts = some gs →
      (∀ i j, BusyAtL gs.tasks i → BusyAtL gs.tasks j → i = j) ∧
      (gs.isRefreshing = false → ∀ i, ¬ BusyAtL gs.tasks i)) ∧
    (∀ (gs : GState) (tid : Nat) (t : Task) (b : RespBody) (gs' : GState),
      gs.tasks[tid]? = some t → t.phase = .fetching →
      t.ctx.hasRetried = false → t.ctx.isRefreshEndpoint = false → gs.isRefreshing = true →
      step gs (.deliverFirst tid (.resp 401 b)) = some gs' →
      gs'.failedQueue = gs.failedQueue ++ [tid] ∧
      gs'.tasks[tid]? = some { t with phase := .queued } ∧
      gs'.refreshCount = gs.refreshCount ∧ gs'.isRefreshing = true) ∧
    (∀ (gs : GState) (tid : Nat) (t : Task) (b : RespBody) (gs' : GState),
      gs.tasks[tid]? = some t → t.phase = .fetching →
      t.ctx.hasRetried = false → t.ctx.isRefreshEndpoint = false → gs.isRefreshing = false →
      step gs (.deliverFirst tid (.resp 401 b)) = some gs' →
      gs'.isRefreshing = true ∧
      gs'.tasks[tid]? = some { t with phase := .refreshInit } ∧
      gs'.refreshCount = gs.refreshCount ∧ gs'.failedQueue = gs.failedQueue) ∧
    (∀ (gs : GState) (tid : Nat) (t : Task) (rt : String) (gs' : GState),
      gs.tasks[tid]? = some t → t.phase = .refreshInit →
      gs.storage.refreshTok = some rt → rt ≠ "" →
      step gs (.refreshRead tid) = some gs' →
      gs'.refreshCount = gs.refreshCount + 1 ∧
      gs'.log = gs.log ++ [.refreshIssued tid rt]) ∧
    ((run (mkInit stA hdA) scenThree).map
        (fun gs => (gs.refreshCount, gs.storage.authToken, gs.isRefreshing,
          gs.tasks.map (fun u => u.phase.settledP))) =
      some (1, some "A2", false, [true, true, true])) := by
  refine ⟨?_, ?_, ?_, ?_, by decide⟩
  · intro st hd acts gs hrun
    have hI := reachable_inv st hd acts gs hrun
    exact ⟨hI.busy_unique, hI.idle_no_busy⟩
  · intro gs tid t b gs' hl hp hr hrf hflag h
    rw [deliverFirst_enqueue_eq gs tid t b hl hp hr hrf hflag] at h
    cases h
    exact ⟨rfl, getElem?_set_self _ _ _ (lt_length_of_getElem? hl), rfl, hflag⟩
  · intro gs tid t b gs' hl hp hr hrf hflag h
    rw [deliverFirst_start_eq gs tid t b hl hp hr hrf hflag] at h
    cases h
    exact ⟨rfl, getElem?_set_self _ _ _ (lt_length_of_getElem? hl), rfl, rfl⟩
  · intro gs tid t rt gs' hl hp hrt hrte h
    rw [refreshRead_post_eq gs tid t rt hl hp hrt hrte] at h
    cases h
    exact ⟨rfl, rfl⟩

def c1post : GState := (step c1gs (.deliverFirst 0 (.resp 401 bEmpty))).getD c1gs

theorem C1_single_flight_witness :
    c1post.failedQueue = c1gs.failedQueue ++ [0] ∧
    c1post.tasks[0]? = some { c1task with phase := .queued } ∧
    c1post.refreshCount = c1gs.refreshCount ∧ c1post.isRefreshing = true :=
  C1_single_flight.2.1 c1gs 0 c1task bEmpty c1post rfl rfl rfl rfl rfl (by decide)


theorem rejectDrain_tasks_length (gs : GState) (th : Thrown) :
    (rejectDrain gs th).tasks.length = gs.tasks.length := by
  simp [rejectDrain, mapWithIdx_length]

theorem releaseDrain_tasks_length (gs : GState) (tok : String) :
    (releaseDrain gs tok).tasks.length = gs.tasks.length := by
  simp [releaseDrain, mapWithIdx_length]

/-- Only `spawn` creates a task; in particular the refresh exchange issues
no `request` of its own (it is a direct fetch, lines 115-123). -/
theorem step_tasks_length (gs : GState) (a : Act) (gs' : GState) (h : step gs a = some gs') :
    gs'.tasks.length = gs.tasks.length ∨
    (∃ m u c tmo, a = Act.spawn m u c tmo ∧ gs'.tasks.length = gs.tasks.length + 1) := by
  cases a with
  | spawn m u c tmo =>
    simp only [step, doSpawn] at h
    cases h
    exact Or.inr ⟨m, u, c, tmo, rfl, by simp⟩
  | tick =>
    simp only [step] at h
    cases h
    exact Or.inl rfl
  | deliverFirst tid out =>
    left
    simp only [step, doDeliverFirst] at h
    cases hl : gs.tasks[tid]? with
    | none => rw [hl] at h; exact Option.noConfusion h
    | some t =>
      rw [hl] at h
      dsimp only at h
      cases hp : t.phase <;> rw [hp] at h <;> dsimp only at h <;>
        try exact Option.noConfusion h
      cases out with
      | resp status b =>
        dsimp only at h
        split at h
        · split at h <;> (cases h; simp)
        · split at h <;> (cases h; simp)
      | netErr msg =>
        dsimp only at h
        cases h
        simp
      | abortErr =>
        dsimp only at h
        cases h
        simp
  | refreshRead tid =>
    left
    simp only [step, doRefreshRead] at h
    cases hl : gs.tasks[tid]? with
    | none => rw [hl] at h; exact Option.noConfusion h
    | some t =>
      rw [hl] at h
      dsimp only at h
      cases hp : t.phase <;> rw [hp] at h <;> dsimp only at h <;>
        try exact Option.noConfusion h
      cases hrt : gs.storage.refreshTok with
      | none =>
        rw [hrt] at h
        dsimp only [refreshNullCont] at h
        cases h
        simp [rejectDrain_tasks_length]
      | some rt =>
        rw [hrt] at h
        dsimp only at h
        split at h
        · dsimp only [refreshNullCont] at h
          cases h
          simp [rejectDrain_tasks_length]
        · cases h
          simp
  | deliverRefresh tid out =>
    left
    simp only [step, doDeliverRefresh] at h
    cases hl : gs.tasks[tid]? with
    | none => rw [hl] at h; exact Option.noConfusion h
    | some t =>
      rw [hl] at h
      dsimp only at h
      cases hp : t.phase <;> rw [hp] at h <;> dsimp only at h <;>
        try exact Option.noConfusion h
      cases out with
      | ok d =>
        simp only [refreshSettle] at h
        cases h
        simp [releaseDrain_tasks_length]
      | httpErr status =>
        simp only [refreshSettle] at h
        dsimp only [refreshNullCont] at h
        cases h
        simp [rejectDrain_tasks_length]
      | netErr msg =>
        simp only [refreshSettle] at h
        dsimp only [refreshNullCont] at h
        cases h
        simp [rejectDrain_tasks_length]
  | deliverReplay tid out =>
    left
    simp only [step, doDeliverReplay] at h
    cases hl : gs.tasks[tid]? with
    | none => rw [hl] at h; exact Option.noConfusion h
    | some t =>
      rw [hl] at h
      dsimp only at h
      cases hp : t.phase <;> rw [hp] at h <;> dsimp only at h <;>
        try exact Option.noConfusion h
      case replaying tok =>
        cases out with
        | resp status b =>
          dsimp only at h
          split at h
          · cases h
            simp
          · dsimp only [starterReplayFail] at h
            cases h
            simp [rejectDrain_tasks_length]
        | netErr msg =>
          dsimp only [starterReplayFail] at h
          cases h
          simp [rejectDrain_tasks_length]
        | abortErr =>
          dsimp only [starterReplayFail] at h
          cases h
          simp [rejectDrain_tasks_length]
      case waiterReplaying tok =>
        cases out with
        | resp status b =>
          dsimp only at h
          split at h <;> (cases h; simp)
        | netErr msg =>
          dsimp only at h
          cases h
          simp
        | abortErr =>
          dsimp only at h
          cases h
          simp

theorem contains_eq_false_iff (m : List String) (y : String) :
    m.contains y = false ↔ y ∉ m := by
  simp

theorem rmDelete_contains_self (m : List String) (id : String) :
    (rmDelete m id).contains id = false := by
  rw [contains_eq_false_iff, rmDelete]
  intro hmem
  rw [List.mem_filter] at hmem
  simp at hmem

theorem filter_contains_false_self {p : String → Bool} (m : List String) {y : String}
    (h : p y = false) : (m.filter p).contains y = false := by
  rw [contains_eq_false_iff]
  intro hmem
  rw [List.mem_filter, h] at hmem
  exact Bool.noConfusion hmem.2

theorem rmDelete_contains_false {m : List String} {y : String} (id : String)
    (h : m.contains y = false) : (rmDelete m id).contains y = false := by
  rw [contains_eq_false_iff] at h ⊢
  intro hmem
  rw [rmDelete, List.mem_filter] at hmem
  exact h hmem.1

theorem mem_queuedIds {gs : GState} {i : Nat} {t : Task}
    (hi : i ∈ gs.failedQueue) (hl : gs.tasks[i]? = some t) :
    t.ctx.requestId ∈ queuedIds gs :=
  mem_queuedIdsL hi hl

theorem settle_contra {t t' : Task} (hns : t.phase.settledP = false)
    (hs : t'.phase.settledP = true) (he : t' = t) : False := by
  rw [he, hns] at hs
  exact Bool.noConfusion hs

theorem refreshNullCont_marker (gsX : GState) (tid : Nat) (t0 : Task) (i : Nat) (t t' : Task)
    (hl0 : gsX.tasks[tid]? = some t0)
    (hl : gsX.tasks[i]? = some t) (hns : t.phase.settledP = false)
    (hli : (refreshNullCont gsX tid t0).tasks[i]? = some t')
    (hs : t'.phase.settledP = true) :
    (refreshNullCont gsX tid t0).retryMap.contains t.ctx.requestId = false := by
  simp only [refreshNullCont, rejectDrain] at hli ⊢
  rcases getElem?_set_cases hli with ⟨hit, _, he⟩ | ⟨hit, hli2⟩
  · subst hit
    rw [hl0] at hl
    cases hl
    exact rmDelete_contains_self _ _
  · rw [mapWithIdx_getElem?_zero, hl] at hli2
    simp only [Option.map_some'] at hli2
    by_cases hc : i ∈ gsX.failedQueue ∧ t.phase = Phase.queued
    · rw [if_pos hc] at hli2
      cases hli2
      exact rmDelete_contains_false _
        (filter_contains_false_self _ (by simp [mem_queuedIds hc.1 hl]))
    · rw [if_neg hc] at hli2
      cases hli2
      exact absurd rfl (fun he => settle_contra hns hs he)

theorem starterReplayFail_marker (gsX : GState) (tid : Nat) (t0 : Task) (th : Thrown)
    (i : Nat) (t t' : Task)
    (hl0 : gsX.tasks[tid]? = some t0)
    (hl : gsX.tasks[i]? = some t) (hns : t.phase.settledP = false)
    (hli : (starterReplayFail gsX tid t0 th).tasks[i]? = some t')
    (hs : t'.phase.settledP = true) :
    (starterReplayFail gsX tid t0 th).retryMap.contains t.ctx.requestId = false := by
  simp only [starterReplayFail, rejectDrain] at hli ⊢
  rcases getElem?_set_cases hli with ⟨hit, _, he⟩ | ⟨hit, hli2⟩
  · subst hit
    rw [hl0] at hl
    cases hl
    exact rmDelete_contains_self _ _
  · rw [mapWithIdx_getElem?_zero, hl] at hli2
    simp only [Option.map_some'] at hli2
    by_cases hc : i ∈ gsX.failedQueue ∧ t.phase = Phase.queued
    · rw [if_pos hc] at hli2
      cases hli2
      exact rmDelete_contains_false _
        (filter_contains_false_self _ (by simp [mem_queuedIds hc.1 hl]))
    · rw [if_neg hc] at hli2
      cases hli2
      exact absurd rfl (fun he => settle_contra hns hs he)

theorem releaseDrain_no_settle (gsX : GState) (tok : String) (tid : Nat) (u' : Task)
    (i : Nat) (t t' : Task)
    (hl : gsX.tasks[i]? = some t) (hns : t.phase.settledP = false)
    (hnsu : u'.phase.settledP = false)
    (hli : ((releaseDrain gsX tok).tasks.set tid u')[i]? = some t')
    (hs : t'.phase.settledP = true) : False := by
  simp only [releaseDrain] at hli
  rcases getElem?_set_cases hli with ⟨hit, _, he⟩ | ⟨hit, hli2⟩
  · subst he
    rw [hnsu] at hs
    exact Bool.noConfusion hs
  · rw [mapWithIdx_getElem?_zero, hl] at hli2
    simp only [Option.map_some'] at hli2
    by_cases hc : i ∈ gsX.failedQueue ∧ t.phase = Phase.queued
    · rw [if_pos hc] at hli2
      cases hli2
      exact Bool.noConfusion hs
    · rw [if_neg hc] at hli2
      cases hli2
      exact settle_contra hns hs rfl

/-- Every path that settles a task removes that task's retry marker in the
same atomic step (lines 242, 250, 254, 259, 274, 309, 319, 326, 344, 348,
356): at the instant the request's promise settles, its id is gone from
`retryMap`. -/
theorem step_settle_deletes_marker (gs : GState) (a : Act) (gs' : GState) (i : Nat)
    (t t' : Task)
    (h : step gs a = some gs') (hl : gs.tasks[i]? = some t)
    (hns : t.phase.settledP = false)
    (hl' : gs'.tasks[i]? = some t') (hs : t'.phase.settledP = true) :
    gs'.retryMap.contains t.ctx.requestId = false := by
  cases a with
  | spawn m u c tmo =>
    simp only [step, doSpawn] at h
    cases h
    exfalso
    rw [getElem?_append_left' _ _ _ (lt_length_of_getElem? hl), hl] at hl'
    cases hl'
    exact settle_contra hns hs rfl
  | tick =>
    simp only [step] at h
    cases h
    exfalso
    rw [hl] at hl'
    cases hl'
    exact settle_contra hns hs rfl
  | deliverFirst tid out =>
    simp only [step, doDeliverFirst] at h
    cases hl0 : gs.tasks[tid]? with
    | none => rw [hl0] at h; exact Option.noConfusion h
    | some t0 =>
      rw [hl0] at h
      dsimp only at h
      cases hp : t0.phase <;> rw [hp] at h <;> dsimp only at h <;>
        try exact Option.noConfusion h
      cases out with
      | resp status b =>
        dsimp only at h
        split at h
        · split at h <;> cases h <;>
          · exfalso
            rcases getElem?_set_cases hl' with ⟨hit, _, he⟩ | ⟨hit, hli⟩
            · subst he
              exact Bool.noConfusion hs
            · rw [hl] at hli
              cases hli
              exact settle_contra hns hs rfl
        · split at h <;> cases h <;>
          · rcases getElem?_set_cases hl' with ⟨hit, _, he⟩ | ⟨hit, hli⟩
            · subst hit
              rw [hl0] at hl
              cases hl
              exact rmDelete_contains_self _ _
            · exfalso
              rw [hl] at hli
              cases hli
              exact settle_contra hns hs rfl
      | netErr msg =>
        dsimp only at h
        cases h
        rcases getElem?_set_cases hl' with ⟨hit, _, he⟩ | ⟨hit, hli⟩
        · subst hit
          rw [hl0] at hl
          cases hl
          exact rmDelete_contains_self _ _
        · exfalso
          rw [hl] at hli
          cases hli
          exact settle_contra hns hs rfl
      | abortErr =>
        dsimp only at h
        cases h
        rcases getElem?_set_cases hl' with ⟨hit, _, he⟩ | ⟨hit, hli⟩
        · subst hit
          rw [hl0] at hl
          cases hl
          exact rmDelete_contains_self _ _
        · exfalso
          rw [hl] at hli
          cases hli
          exact settle_contra hns hs rfl
  | refreshRead tid =>
    simp only [step, doRefreshRead] at h
    cases hl0 : gs.tasks[tid]? with
    | none => rw [hl0] at h; exact Option.noConfusion h
    | some t0 =>
      rw [hl0] at h
      dsimp only at h
      cases hp : t0.phase <;> rw [hp] at h <;> dsimp only at h <;>
        try exact Option.noConfusion h
      cases hrt : gs.storage.refreshTok with
      | none =>
        rw [hrt] at h
        try dsimp only at h
        cases h
        exact refreshNullCont_marker gs tid t0 i t t' hl0 hl hns hl' hs
      | some rt =>
        rw [hrt] at h
        dsimp only at h
        split at h
        · cases h
          exact refreshNullCont_marker gs tid t0 i t t' hl0 hl hns hl' hs
        · cases h
          exfalso
          rcases getElem?_set_cases hl' with ⟨hit, _, he⟩ | ⟨hit, hli⟩
          · subst he
            exact Bool.noConfusion hs
          · rw [hl] at hli
            cases hli
            exact settle_contra hns hs rfl
  | deliverRefresh tid out =>
    simp only [step, doDeliverRefresh] at h
    cases hl0 : gs.tasks[tid]? with
    | none => rw [hl0] at h; exact Option.noConfusion h
    | some t0 =>
      rw [hl0] at h
      dsimp only at h
      cases hp : t0.phase <;> rw [hp] at h <;> dsimp only at h <;>
        try exact Option.noConfusion h
      cases out with
      | ok d =>
        simp only [refreshSettle] at h
        cases h
        exact (releaseDrain_no_settle gs d.accessToken tid
          { t0 with phase := Phase.replaying d.accessToken, attempts := t0.attempts + 1 }
          i t t' hl hns rfl hl' hs).elim
      | httpErr status =>
        simp only [refreshSettle] at h
        cases h
        exact refreshNullCont_marker _ tid t0 i t t' hl0 hl hns hl' hs
      | netErr msg =>
        simp only [refreshSettle] at h
        cases h
        exact refreshNullCont_marker _ tid t0 i t t' hl0 hl hns hl' hs
  | deliverReplay tid out =>
    simp only [step, doDeliverReplay] at h
    cases hl0 : gs.tasks[tid]? with
    | none => rw [hl0] at h; exact Option.noConfusion h
    | some t0 =>
      rw [hl0] at h
      dsimp only at h
      cases hp : t0.phase <;> rw [hp] at h <;> dsimp only at h <;>
        try exact Option.noConfusion h
      case replaying tok =>
        cases out with
        | resp status b =>
          dsimp only at h
          split at h
          · cases h
            rcases getElem?_set_cases hl' with ⟨hit, _, he⟩ | ⟨hit, hli⟩
            · subst hit
              rw [hl0] at hl
              cases hl
              exact rmDelete_contains_self _ _
            · exfalso
              rw [hl] at hli
              cases hli
              exact settle_contra hns hs rfl
          · cases h
            exact starterReplayFail_marker gs tid t0 _ i t t' hl0 hl hns hl' hs
        | netErr msg =>
          try dsimp only at h
          cases h
          exact starterReplayFail_marker gs tid t0 _ i t t' hl0 hl hns hl' hs
        | abortErr =>
          try dsimp only at h
          cases h
          exact starterReplayFail_marker gs tid t0 _ i t t' hl0 hl hns hl' hs
      case waiterReplaying tok =>
        cases out with
        | resp status b =>
          dsimp only at h
          split at h <;> cases h <;>
          · rcases getElem?_set_cases hl' with ⟨hit, _, he⟩ | ⟨hit, hli⟩
            · subst hit
              rw [hl0] at hl
              cases hl
              exact rmDelete_contains_self _ _
            · exfalso
              rw [hl] at hli
              cases hli
              exact settle_contra hns hs rfl
        | netErr msg =>
          try dsimp only at h
          cases h
          rcases getElem?_set_cases hl' with ⟨hit, _, he⟩ | ⟨hit, hli⟩
          · subst hit
            rw [hl0] at hl
            cases hl
            exact rmDelete_contains_self _ _
          · exfalso
            rw [hl] at hli
            cases hli
            exact settle_contra hns hs rfl
        | abortErr =>
          try dsimp only at h
          cases h
          rcases getElem?_set_cases hl' with ⟨hit, _, he⟩ | ⟨hit, hli⟩
          · subst hit
            rw [hl0] at hl
            cases hl
            exact rmDelete_contains_self _ _
          · exfalso
            rw [hl] at hli
            cases hli
            exact settle_contra hns hs rfl

/-- The single-cycle scenario: one call 401s from idle, the exchange
succeeds, and the starter is replaying with the fresh token. -/
def scenStarter : List Act :=
  [ .spawn "GET" urlA [] 120000, .deliverFirst 0 (.resp 401 bEmpty),
    .refreshRead 0, .deliverRefresh 0 (.ok dA2) ]

def gsStarter : GState := (run (mkInit stA hdA) scenStarter).getD (mkInit stA hdA)

def tStarter : Task := (gsStarter.tasks[0]?).getD c1task

/-- C2: no double retry.  (a) No invocation ever issues more than two
fetches for its URL (first attempt plus at most one replay).  (b) A starter
whose replay comes back non-2xx (in particular a second 401) has made
exactly the one retry attempt and settles at once with the typed error of
the catch chain, issuing no further refresh and no further fetch.
(c) The same for a released waiter whose replay fails.  (d) A settled task
never changes again, so the call can never loop. -/
theorem C2_no_double_retry :
    (∀ (st : Storage) (hd : List (String × String)) (acts : List Act) (gs : GState),
      run (mkInit st hd) acts = some gs →
      ∀ (i : Nat) (t : Task), gs.tasks[i]? = some t → t.attempts ≤ 2) ∧
    (∀ (st : Storage) (hd : List (String × String)) (acts : List Act) (gs : GState)
      (tid : Nat) (t : Task) (tok : String) (status : Nat) (b : RespBody) (gs' : GState),
      run (mkInit st hd) acts = some gs →
      gs.tasks[tid]? = some t → t.phase = .replaying tok → respOk status = false →
      step gs (.deliverReplay tid (.resp status b)) = some gs' →
      t.attempts = 2 ∧
      gs'.tasks[tid]? = some { t with
        phase := .settledErr (starterReplayErr (replayThrown (.resp status b))) } ∧
      gs'.refreshCount = gs.refreshCount ∧ gs'.tasks.length = gs.tasks.length) ∧
    (∀ (st : Storage) (hd : List (String × String)) (acts : List Act) (gs : GState)
      (tid : Nat) (t : Task) (tok : String) (status : Nat) (b : RespBody) (gs' : GState),
      run (mkInit st hd) acts = some gs →
      gs.tasks[tid]? = some t → t.phase = .waiterReplaying tok → respOk status = false →
      step gs (.deliverReplay tid (.resp status b)) = some gs' →
      t.attempts = 2 ∧
      gs'.tasks[tid]? = some { t with
        phase := .settledErr (waiterReplayErr (replayThrown (.resp status b))) } ∧
      gs'.refreshCount = gs.refreshCount ∧ gs'.tasks.length = gs.tasks.length) ∧
    (∀ (gs : GState) (a : Act) (gs' : GState) (i : Nat) (t : Task),
      step gs a = some gs' → gs.tasks[i]? = some t → t.phase.settledP = true →
      gs'.tasks[i]? = some t) := by
  refine ⟨?_, ?_, ?_, ?_⟩
  · intro st hd acts gs hrun i t hl
    exact (reachable_inv st hd acts gs hrun).att_le i t hl
  · intro st hd acts gs tid t tok status b gs' hrun hl hp hnok h
    rw [deliverReplay_starter_fail_eq gs tid t tok status b hl hp hnok] at h
    cases h
    refine ⟨(reachable_inv st hd acts gs hrun).att_two tid t hl (Or.inl ⟨tok, hp⟩), ?_, rfl, ?_⟩
    · show ((rejectDrain gs _).tasks.set tid _)[tid]? = _
      exact getElem?_set_self _ _ _
        (by rw [rejectDrain_tasks_length]; exact lt_length_of_getElem? hl)
    · show ((rejectDrain gs _).tasks.set tid _).length = _
      rw [List.length_set, rejectDrain_tasks_length]
  · intro st hd acts gs tid t tok status b gs' hrun hl hp hnok h
    rw [deliverReplay_waiter_fail_eq gs tid t tok status b hl hp hnok] at h
    cases h
    refine ⟨(reachable_inv st hd acts gs hrun).att_two tid t hl (Or.inr ⟨tok, hp⟩), ?_, rfl, ?_⟩
    · exact getElem?_set_self _ _ _ (lt_length_of_getElem? hl)
    · simp
  · intro gs a gs' i t h hl hset
    obtain ⟨t', hl', _, hfr⟩ := (step_frame gs a gs' h).1 i t hl
    rw [hfr hset] at hl'
    exact hl'

def c2post : GState := (step gsStarter (.deliverReplay 0 (.resp 401 bEmpty))).getD gsStarter

theorem C2_no_double_retry_witness :
    tStarter.attempts = 2 ∧
    c2post.tasks[0]? = some { tStarter with
      phase := .settledErr (starterReplayErr (replayThrown (.resp 401 bEmpty))) } ∧
    c2post.refreshCount = gsStarter.refreshCount ∧
    c2post.tasks.length = gsStarter.tasks.length :=
  C2_no_double_retry.2.1 stA hdA scenStarter gsStarter 0 tStarter "A2" 401 bEmpty c2post
    (by decide) (by decide) (by decide) (by decide) (by decide)

/-- C9: retry-marker cleanup.  (a) Every step that settles a request's
promise removes that request's id from `retryMap` in the same atomic
segment, on every exit path.  (b) In every reachable state each id in
`retryMap` belongs to a live (unsettled) task that marked it, so the map
never accumulates entries beyond the in-flight requests. -/
theorem C9_retry_marker_cleanup :
    (∀ (gs : GState) (a : Act) (gs' : GState) (i : Nat) (t t' : Task),
      step gs a = some gs' → gs.tasks[i]? = some t → t.phase.settledP = false →
      gs'.tasks[i]? = some t' → t'.phase.settledP = true →
      gs'.retryMap.contains t.ctx.requestId = false) ∧
    (∀ (st : Storage) (hd : List (String × String)) (acts : List Act) (gs : GState),
      run (mkInit st hd) acts = some gs →
      ∀ id ∈ gs.retryMap, ∃ (i : Nat) (t : Task), gs.tasks[i]? = some t ∧
        t.ctx.requestId = id ∧ t.phase.markedP = true) := by
  refine ⟨step_settle_deletes_marker, ?_⟩
  intro st hd acts gs hrun
  exact (reachable_inv st hd acts gs hrun).rm_witness

def c9act : Act := .deliverFirst 0 (.resp 500 bEmpty)

def c9post : GState := (step c1gs c9act).getD c1gs

def c9task : Task := (c9post.tasks[0]?).getD c1task

theorem C9_retry_marker_cleanup_witness :
    c9post.retryMap.contains c1task.ctx.requestId = false :=
  C9_retry_marker_cleanup.1 c1gs c9act c9post 0 c1task c9task
    (by decide) (by decide) (by decide) (by decide) (by decide)

/-- Two calls 401 from idle; the starter has issued the exchange and call 1
waits in the queue. -/
def scenWait : List Act :=
  [ .spawn "GET" urlA [] 120000, .spawn "GET" urlB [] 120000,
    .deliverFirst 0 (.resp 401 bEmpty), .deliverFirst 1 (.resp 401 bEmpty),
    .refreshRead 0 ]

def gsWait : GState := (run (mkInit stA hdA) scenWait).getD (mkInit stA hdA)

def tsWait : Task := (gsWait.tasks[0]?).getD c1task

/-- C3: queue release.  (a) While the refresh exchange is in flight, no
step other than its settling touches a queued waiter or removes it from
the queue (the queue only grows at the tail, so positions are FIFO arrival
order).  (b) When the exchange succeeds, the settling step atomically
empties the queue, hands every queued waiter the same new access token
(each moves to `waiterReplaying` with that token), and the ghost log
records the releases exactly in queue order.  (c) When the exchange fails,
the settling step atomically empties the queue and rejects every queued
waiter with the same error, again in queue order. -/
theorem C3_queue_release :
    (∀ (st : Storage) (hd : List (String × String)) (acts : List Act) (gs : GState),
      run (mkInit st hd) acts = some gs →
      ∀ (s : Nat) (ts : Task) (sent : String), gs.tasks[s]? = some ts →
        ts.phase = .refreshWaiting sent →
        ∀ (a : Act) (gs' : GState), step gs a = some gs' →
          (∀ out, a ≠ Act.deliverRefresh s out) →
          (∀ (i : Nat) (t : Task), i ∈ gs.failedQueue → gs.tasks[i]? = some t →
            gs'.tasks[i]? = some t ∧ i ∈ gs'.failedQueue) ∧
          (∃ l, gs'.failedQueue = gs.failedQueue ++ l)) ∧
    (∀ (gs : GState) (s : Nat) (ts : Task) (sent : String) (d : AuthData) (gs' : GState),
      gs.tasks[s]? = some ts → ts.phase = .refreshWaiting sent →
      step gs (.deliverRefresh s (.ok d)) = some gs' →
      gs'.failedQueue = [] ∧
      gs'.log = gs.log ++ gs.failedQueue.map (fun i => Ev.resolvedWaiter i d.accessToken) ∧
      (∀ (i : Nat) (u : Task), i ∈ gs.failedQueue → gs.tasks[i]? = some u →
        u.phase = .queued →
        gs'.tasks[i]? = some
          { u with phase := .waiterReplaying d.accessToken, attempts := u.attempts + 1 })) ∧
    (∀ (gs : GState) (s : Nat) (ts : Task) (sent : String) (out : RefreshOutcome)
      (gs' : GState),
      gs.tasks[s]? = some ts → ts.phase = .refreshWaiting sent →
      RefreshOutcome.isOk out = false →
      step gs (.deliverRefresh s out) = some gs' →
      gs'.failedQueue = [] ∧
      gs'.log = gs.log ++
        gs.failedQueue.map (fun i => Ev.rejectedWaiter i refreshFailedWaiterErr) ∧
      (∀ (i : Nat) (u : Task), i ∈ gs.failedQueue → gs.tasks[i]? = some u →
        u.phase = .queued →
        gs'.tasks[i]? = some { u with phase := .settledErr refreshFailedWaiterErr })) := by
  refine ⟨?_, ?_, ?_⟩
  · intro st hd acts gs hrun s ts sent hls hps a gs' h hna
    exact no_release_while_inflight gs (reachable_inv st hd acts gs hrun) s ts sent hls hps
      a gs' h hna
  · intro gs s ts sent d gs' hls hps h
    rw [deliverRefresh_ok_eq gs s ts sent d hls hps] at h
    cases h
    refine ⟨rfl, rfl, ?_⟩
    intro i u hi hl hq
    have hne : s ≠ i := by
      intro he
      subst he
      rw [hls] at hl
      cases hl
      rw [hq] at hps
      exact Phase.noConfusion hps
    show ((releaseDrain _ _).tasks.set s _)[i]? = _
    rw [getElem?_set_ne' _ _ _ _ hne]
    simp only [releaseDrain]
    rw [mapWithIdx_getElem?_zero]
    show ((gs.tasks[i]?).map _) = _
    rw [hl]
    simp [hi, hq]
  · intro gs s ts sent out gs' hls hps hfail h
    rw [deliverRefresh_fail_eq gs s ts sent out hls hps hfail] at h
    cases h
    refine ⟨rfl, rfl, ?_⟩
    intro i u hi hl hq
    have hne : s ≠ i := by
      intro he
      subst he
      rw [hls] at hl
      cases hl
      rw [hq] at hps
      exact Phase.noConfusion hps
    show ((rejectDrain _ _).tasks.set s _)[i]? = _
    rw [getElem?_set_ne' _ _ _ _ hne]
    simp only [rejectDrain]
    rw [mapWithIdx_getElem?_zero]
    show ((gs.tasks[i]?).map _) = _
    rw [hl]
    simp [hi, hq]
    rfl

def c3post : GState := (step gsWait (.deliverRefresh 0 (.ok dA2))).getD gsWait

def tWaiter : Task := (gsWait.tasks[1]?).getD c1task

theorem C3_queue_release_witness :
    c3post.failedQueue = [] ∧
    c3post.log = gsWait.log ++
      gsWait.failedQueue.map (fun i => Ev.resolvedWaiter i dA2.accessToken) ∧
    c3post.tasks[1]? = some
      { tWaiter with
        phase := .waiterReplaying dA2.accessToken, attempts := tWaiter.attempts + 1 } := by
  have H := C3_queue_release.2.1 gsWait 0 tsWait "R1" dA2 c3post
    (by decide) (by decide) (by decide)
  exact ⟨H.1, H.2.1, H.2.2 1 tWaiter (by decide) (by decide) (by decide)⟩

/-- The C4 window continued: a second call 401s during the starter's
replay, and then the replay succeeds. -/
def scenC4b : List Act := scenStarter ++
  [ .spawn "GET" urlB [] 120000, .deliverFirst 1 (.resp 401 bEmpty) ]

def scenC4c : List Act := scenC4b ++ [ .deliverReplay 0 (.resp 200 bPayload) ]

/-- C4 counterexample.  After the refresh exchange settles successfully
(`scenStarter` ends exactly at that settling step), the queue has been
drained but `isRefreshing` is still `true` at the following suspension
point - the claimed combined drain-plus-Idle transition does not happen;
the flag only falls when the starter's replay settles (lines 310/320/327).
Consequently a 401 arriving after the drain (`scenC4b`) enqueues against
the already-drained queue (queue becomes `[1]`, `refreshCount` stays 1)
instead of starting a new refresh cycle; and if the replay then succeeds
(`scenC4c`) that late waiter is left sitting in the queue, unreleased. -/
theorem C4_counterexample :
    ((run (mkInit stA hdA) scenStarter).map
        (fun gs => (gs.isRefreshing, gs.failedQueue)) = some (true, [])) ∧
    ((run (mkInit stA hdA) scenC4b).map
        (fun gs => (gs.isRefreshing, gs.failedQueue, gs.refreshCount)) =
      some (true, [1], 1)) ∧
    ((run (mkInit stA hdA) scenC4c).map
        (fun gs => (gs.isRefreshing, gs.failedQueue, gs.refreshCount,
          (gs.tasks[1]?).map (fun t => t.phase))) =
      some (false, [1], 1, some .queued)) := by
  decide

/-- C4 amended: after the exchange settles the queue is drained in the same
synchronous segment; on the failure path `isRefreshing` is also reset in
that segment, but on the success path the flag stays up until the starter's
replay settles.  Hence a 401 arriving after the drain (during the replay)
enqueues onto the drained queue rather than starting a new cycle; such late
waiters are rejected if the replay fails and are left queued (pending) if
it succeeds. -/
theorem C4_idle_transition :
    (∀ (gs : GState) (tid : Nat) (t : Task) (sent : String) (out : RefreshOutcome)
      (gs' : GState),
      gs.tasks[tid]? = some t → t.phase = .refreshWaiting sent →
      RefreshOutcome.isOk out = false →
      step gs (.deliverRefresh tid out) = some gs' →
      gs'.isRefreshing = false ∧ gs'.failedQueue = []) ∧
    (∀ (gs : GState) (tid : Nat) (t : Task) (sent : String) (d : AuthData) (gs' : GState),
      gs.tasks[tid]? = some t → t.phase = .refreshWaiting sent →
      step gs (.deliverRefresh tid (.ok d)) = some gs' →
      gs'.failedQueue = [] ∧ gs'.isRefreshing = gs.isRefreshing) ∧
    (∀ (gs : GState) (tid : Nat) (t : Task) (tok : String) (status : Nat) (b : RespBody)
      (gs' : GState),
      gs.tasks[tid]? = some t → t.phase = .replaying tok → respOk status = true →
      step gs (.deliverReplay tid (.resp status b)) = some gs' →
      gs'.isRefreshing = false ∧ gs'.failedQueue = gs.failedQueue) ∧
    (∀ (gs : GState) (tid : Nat) (t : Task) (tok : String) (status : Nat) (b : RespBody)
      (gs' : GState),
      gs.tasks[tid]? = some t → t.phase = .replaying tok → respOk status = false →
      step gs (.deliverReplay tid (.resp status b)) = some gs' →
      gs'.isRefreshing = false ∧ gs'.failedQueue = []) ∧
    (∀ (gs : GState) (tid : Nat) (t : Task) (b : RespBody) (gs' : GState),
      gs.tasks[tid]? = some t → t.phase = .fetching →
      t.ctx.hasRetried = false → t.ctx.isRefreshEndpoint = false → gs.isRefreshing = true →
      step gs (.deliverFirst tid (.resp 401 b)) = some gs' →
      gs'.failedQueue = gs.failedQueue ++ [tid] ∧
      gs'.refreshCount = gs.refreshCount ∧ gs'.isRefreshing = true) := by
  refine ⟨?_, ?_, ?_, ?_, ?_⟩
  · intro gs tid t sent out gs' hl hp hfail h
    rw [deliverRefresh_fail_eq gs tid t sent out hl hp hfail] at h
    cases h
    exact ⟨rfl, rfl⟩
  · intro gs tid t sent d gs' hl hp h
    rw [deliverRefresh_ok_eq gs tid t sent d hl hp] at h
    cases h
    exact ⟨rfl, rfl⟩
  · intro gs tid t tok status b gs' hl hp hok h
    rw [deliverReplay_starter_ok_eq gs tid t tok status b hl hp hok] at h
    cases h
    exact ⟨rfl, rfl⟩
  · intro gs tid t tok status b gs' hl hp hnok h
    rw [deliverReplay_starter_fail_eq gs tid t tok status b hl hp hnok] at h
    cases h
    exact ⟨rfl, rfl⟩
  · intro gs tid t b gs' hl hp hr hrf hflag h
    rw [deliverFirst_enqueue_eq gs tid t b hl hp hr hrf hflag] at h
    cases h
    exact ⟨rfl, rfl, hflag⟩

def c4post : GState := (step gsWait (.deliverRefresh 0 (.httpErr 400))).getD gsWait

theorem C4_idle_transition_witness :
    c4post.isRefreshing = false ∧ c4post.failedQueue = [] :=
  C4_idle_transition.1 gsWait 0 tsWait "R1" (.httpErr 400) c4post
    (by decide) (by decide) (by decide) (by decide)

/-! ## Facts about header maps -/

theorem objGet_eq_none_iff (m : List (String × String)) (k : String) :
    objGet m k = none ↔ ∀ kv ∈ m, kv.1 ≠ k := by
  simp [objGet, List.find?_eq_none]

theorem objGet_objDelete_self (m : List (String × String)) (k : String) :
    objGet (objDelete m k) k = none := by
  rw [objGet_eq_none_iff]
  intro kv hkv
  rw [objDelete, List.mem_filter] at hkv
  simpa using hkv.2

theorem objSet_keeps_absent {m : List (String × String)} {key k' : String} (v : String)
    (hm : ∀ kv ∈ m, kv.1 ≠ key) (hk : k' ≠ key) :
    ∀ kv ∈ objSet m k' v, kv.1 ≠ key := by
  induction m with
  | nil =>
    intro kv hkv
    rw [objSet, List.mem_singleton] at hkv
    rw [hkv]
    exact hk
  | cons a rest ih =>
    intro kv hkv
    rw [objSet] at hkv
    split at hkv
    · rcases List.mem_cons.mp hkv with he | hm2
      · rw [he]
        exact hk
      · exact hm kv (List.mem_cons_of_mem a hm2)
    · rcases List.mem_cons.mp hkv with he | hm2
      · rw [he]
        exact hm a (List.mem_cons_self a rest)
      · exact ih (fun kv2 h2 => hm kv2 (List.mem_cons_of_mem a h2)) kv hm2

theorem objMergeList_keeps_absent {key : String} (b : List (String × String)) :
    ∀ a : List (String × String), (∀ kv ∈ a, kv.1 ≠ key) → (∀ kv ∈ b, kv.1 ≠ key) →
    ∀ kv ∈ objMergeList a b, kv.1 ≠ key := by
  induction b with
  | nil => intro a ha _ kv hkv; exact ha kv hkv
  | cons kv0 rest ih =>
    intro a ha hb kv hkv
    have hk0 : kv0.1 ≠ key := hb kv0 (List.mem_cons_self kv0 rest)
    have hstep : ∀ kv2 ∈ objSet a kv0.1 kv0.2, kv2.1 ≠ key :=
      objSet_keeps_absent kv0.2 ha hk0
    exact ih (objSet a kv0.1 kv0.2) hstep
      (fun kv2 h2 => hb kv2 (List.mem_cons_of_mem kv0 h2)) kv hkv

/-- C5 counterexample.  With an absent stored refresh token (and a stale
access token still in its slot and an `Authorization` default header still
set), `refreshToken` returns `null` at line 112 *without* clearing any of
the three credential slots and without removing the header - contradicting
the claim that every refresh failure, including an empty/absent stored
refresh token, clears all three slots and removes the header. -/
theorem C5_counterexample :
    refreshTokenFn ⟨some "A1", none, some "U1"⟩ [("Authorization", "Bearer A1")]
        (.netErr "offline") =
      (none, ⟨some "A1", none, some "U1"⟩, [("Authorization", "Bearer A1")]) ∧
    (⟨some "A1", none, some "U1"⟩ : Storage).authToken ≠ none ∧
    objGet [("Authorization", "Bearer A1")] "Authorization" = some ("Bearer A1") := by
  decide

/-- C5 amended: when a non-empty refresh token is stored and the exchange
itself fails (network error, non-2xx, or an unparsable body - any thrown
error), `refreshToken` clears all three slots, removes the `Authorization`
default header and returns no token, and a subsequent authenticated call
built from the cleared state carries no `Authorization` header (provided
the caller adds none).  When the stored refresh token is absent or empty,
`refreshToken` returns no token immediately and leaves both the slots and
the headers untouched. -/
theorem C5_credential_clear :
    (∀ (st : Storage) (hd : List (String × String)) (out : RefreshOutcome),
      jsFalsyStr st.refreshTok = false → RefreshOutcome.isOk out = false →
      refreshTokenFn st hd out = (none, emptyStorage, objDelete hd "Authorization") ∧
      objGet (objDelete hd "Authorization") "Authorization" = none ∧
      (∀ caller : List (String × String), objGet caller "Authorization" = none →
        objGet (mkRequestHeaders (objDelete hd "Authorization") emptyStorage.authToken
          false caller) "Authorization" = none)) ∧
    (∀ (st : Storage) (hd : List (String × String)) (out : RefreshOutcome),
      jsFalsyStr st.refreshTok = true →
      refreshTokenFn st hd out = (none, st, hd)) := by
  constructor
  · intro st hd out hfalsy hfail
    have heq : refreshTokenFn st hd out =
        (none, emptyStorage, objDelete hd "Authorization") := by
      rw [refreshTokenFn, if_neg (by rw [hfalsy]; exact Bool.false_ne_true)]
      cases out with
      | ok d => exact absurd hfail (by simp [RefreshOutcome.isOk])
      | httpErr status => rfl
      | netErr msg => rfl
    refine ⟨heq, objGet_objDelete_self hd ("Authorization"), ?_⟩
    intro caller hcaller
    show objGet (objMergeList (objMergeList (objDelete hd ("Authorization")) [])
      caller) ("Authorization") = none
    rw [objGet_eq_none_iff]
    exact objMergeList_keeps_absent caller (objMergeList (objDelete hd ("Authorization")) [])
      ((objGet_eq_none_iff _ _).mp (objGet_objDelete_self hd ("Authorization")))
      ((objGet_eq_none_iff _ _).mp hcaller)
  · intro st hd out hfalsy
    rw [refreshTokenFn, if_pos hfalsy]

theorem C5_credential_clear_witness :
    refreshTokenFn stA hdA (.httpErr 400) =
      (none, emptyStorage, objDelete hdA "Authorization") ∧
    objGet (objDelete hdA "Authorization") "Authorization" = none ∧
    objGet (mkRequestHeaders (objDelete hdA "Authorization") emptyStorage.authToken
      false []) "Authorization" = none := by
  have H := C5_credential_clear.1 stA hdA (.httpErr 400) (by decide) (by decide)
  exact ⟨H.1, H.2.1, H.2.2 [] (by decide)⟩

/-- C6 counterexample.  An attempt *can* exceed its deadline and be aborted
without the call rejecting with status 408: when the *replay* attempt times
out, its `AbortError` is wrapped by the catch at line 317 before it ever
reaches the outer `error.name === 'AbortError'` check at line 358, so the
call rejects with a generic error whose status is `none`, not 408 - while
the transport was in fact aborted (`replayAborted = true`). -/
theorem C6_counterexample :
    (requestSeq stA hdA urlA 100
        ⟨10, .resp 401 bEmpty, .ok dA2, 500, .resp 200 bPayload⟩).replayAborted = true ∧
    (requestSeq stA hdA urlA 100
        ⟨10, .resp 401 bEmpty, .ok dA2, 500, .resp 200 bPayload⟩).result =
      .error ⟨"Aborted", none⟩ := by
  decide

/-- C6 amended: a *first* attempt that exceeds its deadline aborts the
transport via the controller signal and rejects with the uniform error of
status 408, with no retry, no refresh and no further attempt.  A *replay*
attempt that exceeds its deadline likewise aborts the transport and is
never retried (the call settles, two attempts total), but it rejects with
the wrapped generic error whose status is `none` - the 408 mapping of
lines 358-362 is unreachable for it. -/
theorem C6_timeout :
    (∀ (st : Storage) (hd : List (String × String)) (url : String) (tmo : Nat)
      (env : SeqEnv),
      tmo < env.firstArrival →
      requestSeq st hd url tmo env =
        ⟨.error ⟨timeoutErrMsg, some 408⟩, true, false, false, 0, 1, st, hd⟩) ∧
    (∀ (st : Storage) (hd : List (String × String)) (url : String) (tmo : Nat)
      (env : SeqEnv) (b : RespBody) (d : AuthData),
      ¬ tmo < env.firstArrival → env.firstWire = .resp 401 b →
      includesSub url refreshPath = false →
      jsFalsyStr st.refreshTok = false → env.refreshOut = .ok d →
      tmo < env.replayArrival →
      requestSeq st hd url tmo env =
        ⟨.error (starterReplayErr (.errObj "AbortError" "Aborted")), false, true, true, 1, 2,
          ⟨some d.accessToken, some d.refreshTokenNew, some d.userJson⟩,
          objSet hd "Authorization" ("Bearer " ++ d.accessToken)⟩ ∧
      (starterReplayErr (.errObj "AbortError" "Aborted")).status = none) := by
  constructor
  · intro st hd url tmo env h1
    cases hfw : env.firstWire with
    | resp s b =>
      simp only [requestSeq, executeAttempt, hfw, if_pos h1]
    | netErr m =>
      simp only [requestSeq, executeAttempt, hfw, if_pos h1]
  · intro st hd url tmo env b d h1 h2 h3 h4 h5 h6
    constructor
    · simp only [requestSeq, executeAttempt, h2, if_neg h1]
      rw [if_pos (And.intro trivial h3)]
      have hnf : ¬ (jsFalsyStr st.refreshTok = true) := by simp [h4]
      simp only [refreshTokenFn, if_neg hnf, h5, refreshSettle]
      cases hrw : env.replayWire with
      | resp s2 b2 => simp [executeAttempt, if_pos h6, h4]
      | netErr m2 => simp [executeAttempt, if_pos h6, h4]
    · rfl

theorem C6_timeout_witness :
    requestSeq stA hdA urlA 100 ⟨500, .resp 200 bPayload, .ok dA2, 10, .resp 200 bPayload⟩ =
      ⟨.error ⟨timeoutErrMsg, some 408⟩, true, false, false, 0, 1, stA, hdA⟩ :=
  C6_timeout.1 stA hdA urlA 100 ⟨500, .resp 200 bPayload, .ok dA2, 10, .resp 200 bPayload⟩
    (by decide)

theorem mkRequestHeaders_refresh (d : List (String × String)) (tok : Option String)
    (caller : List (String × String)) :
    mkRequestHeaders d tok true caller = objMergeList d caller := rfl

/-- C7: the refresh endpoint bypasses the 401-interception path.  (a) A
request whose URL contains `/auth/refresh-tokens` is built without the
stored-token `Authorization` header: its attempt headers are exactly the
defaults overlaid with the caller's headers, independent of the stored
token.  (b) A 401 on such a request is surfaced directly: no retry marker
is added (only its own id is deleted), nothing enqueues, no refresh starts,
the flag and queue are untouched.  (c) No step but `spawn` creates a task:
in particular the refresh exchange (a direct `fetch`, lines 115-123) never
re-enters `request`, so no recursive refresh-of-a-refresh can occur. -/
theorem C7_refresh_endpoint_bypass :
    (∀ (gs : GState) (m u : String) (caller : List (String × String)) (tmo : Nat)
      (gs' : GState),
      includesSub u refreshPath = true →
      step gs (.spawn m u caller tmo) = some gs' →
      (gs'.tasks[gs.tasks.length]?).map
          (fun t => (t.ctx.isRefreshEndpoint, t.ctx.requestHeaders, t.phase)) =
        some (true, objMergeList gs.defaultHeaders caller, .fetching)) ∧
    (∀ (gs : GState) (tid : Nat) (t : Task) (b : RespBody) (gs' : GState),
      gs.tasks[tid]? = some t → t.phase = .fetching → t.ctx.isRefreshEndpoint = true →
      step gs (.deliverFirst tid (.resp 401 b)) = some gs' →
      gs'.tasks[tid]? = some { t with phase := .settledErr (plainHttpErr 401 b) } ∧
      gs'.failedQueue = gs.failedQueue ∧ gs'.isRefreshing = gs.isRefreshing ∧
      gs'.refreshCount = gs.refreshCount ∧
      gs'.retryMap = rmDelete gs.retryMap t.ctx.requestId) ∧
    (∀ (gs : GState) (a : Act) (gs' : GState), step gs a = some gs' →
      gs'.tasks.length = gs.tasks.length ∨
      (∃ m u c tmo, a = Act.spawn m u c tmo ∧ gs'.tasks.length = gs.tasks.length + 1)) := by
  refine ⟨?_, ?_, step_tasks_length⟩
  · intro gs m u caller tmo gs' hin h
    simp only [step, doSpawn] at h
    cases h
    rw [List.getElem?_concat_length, Option.map_some']
    rw [hin, mkRequestHeaders_refresh]
  · intro gs tid t b gs' hl hp hrf h
    have hg : ¬(401 = 401 ∧ t.ctx.hasRetried = false ∧ t.ctx.isRefreshEndpoint = false) := by
      intro hc
      rw [hrf] at hc
      exact Bool.noConfusion hc.2.2
    rw [deliverFirst_surface_eq gs tid t 401 b hl hp hg (by decide)] at h
    cases h
    exact ⟨getElem?_set_self _ _ _ (lt_length_of_getElem? hl), rfl, rfl, rfl, rfl⟩

def refreshUrl : String := "https://api.example.com/auth/refresh-tokens"

def c7post : GState :=
  (step (mkInit stA hdA) (.spawn "POST" refreshUrl [] 120000)).getD (mkInit stA hdA)

theorem C7_refresh_endpoint_bypass_witness :
    (c7post.tasks[(mkInit stA hdA).tasks.length]?).map
        (fun t => (t.ctx.isRefreshEndpoint, t.ctx.requestHeaders, t.phase)) =
      some (true, objMergeList (mkInit stA hdA).defaultHeaders [], .fetching) :=
  C7_refresh_endpoint_bypass.1 (mkInit stA hdA) "POST" refreshUrl [] 120000 c7post
    (by decide) (by decide)

/-- C8: the client never mutates caller-supplied request data.  (a) Every
step preserves every task's `ctx` - the per-invocation copy of the caller's
config (method, url, headers, timeout) and the derived attempt data - so no
path, including the 401 refresh-and-replay path, writes into the caller's
options.  (b) The only step that touches the observable client-owned state
(the stored credentials and the default header set) is the settling of a
refresh exchange. -/
theorem C8_no_caller_mutation :
    (∀ (gs : GState) (a : Act) (gs' : GState), step gs a = some gs' →
      ∀ (i : Nat) (t : Task), gs.tasks[i]? = some t →
        (gs'.tasks[i]?).map (fun u => u.ctx) = some t.ctx) ∧
    (∀ (gs : GState) (a : Act) (gs' : GState), step gs a = some gs' →
      (gs'.storage = gs.storage ∧ gs'.defaultHeaders = gs.defaultHeaders) ∨
      ∃ tid out, a = Act.deliverRefresh tid out) := by
  constructor
  · intro gs a gs' h i t hl
    obtain ⟨t', hl', hctx, _⟩ := (step_frame gs a gs' h).1 i t hl
    rw [hl', Option.map_some', hctx]
  · intro gs a gs' h
    exact (step_frame gs a gs' h).2

theorem C8_no_caller_mutation_witness :
    (c1post.tasks[0]?).map (fun u => u.ctx) = some c1task.ctx :=
  C8_no_caller_mutation.1 c1gs (.deliverFirst 0 (.resp 401 bEmpty)) c1post
    (by decide) 0 c1task (by decide)

/-- Two calls to the same method and URL in the same millisecond share a
`requestId`; the first marks it retried before the second's 401 arrives. -/
def scenC10 : List Act :=
  [ .spawn "GET" urlA [] 120000, .deliverFirst 0 (.resp 401 bEmpty),
    .spawn "GET" urlA [] 120000, .deliverFirst 1 (.resp 401 bEmpty) ]

/-- C10: request identity.  (a) For a call whose id (method, URL and the
`Date.now()` instant) is not shared with any live unsettled call, the
`hasRetried` read at line 172 is `false`.  (b) In the same-millisecond
collision scenario, the second call reads `hasRetried = true` from the
shared id after the first marked it, so its first 401 is surfaced directly:
it neither retries, nor enqueues, nor starts a refresh. -/
theorem C10_request_identity :
    (∀ (st : Storage) (hd : List (String × String)) (acts : List Act) (gs : GState)
      (m u : String) (caller : List (String × String)) (tmo : Nat) (gs' : GState),
      run (mkInit st hd) acts = some gs →
      (∀ (i : Nat) (t : Task), gs.tasks[i]? = some t → t.phase.settledP = false →
        t.ctx.requestId ≠ m ++ ":" ++ u ++ ":" ++ toString gs.now) →
      step gs (.spawn m u caller tmo) = some gs' →
      (gs'.tasks[gs.tasks.length]?).map (fun t => t.ctx.hasRetried) = some false) ∧
    ((run (mkInit stA hdA) scenC10).map (fun gs =>
        (gs.failedQueue, gs.refreshCount, gs.isRefreshing,
         (gs.tasks[1]?).map (fun t => (t.ctx.hasRetried, t.phase)))) =
      some ([], 0, true, some (true, .settledErr (plainHttpErr 401 bEmpty)))) := by
  refine ⟨?_, by decide⟩
  intro st hd acts gs m u caller tmo gs' hrun hfresh h
  simp only [step, doSpawn] at h
  cases h
  rw [List.getElem?_concat_length, Option.map_some']
  suffices hsuff : gs.retryMap.contains (m ++ ":" ++ u ++ ":" ++ toString gs.now) = false by
    simpa using hsuff
  by_contra hcon
  have hmem : (m ++ ":" ++ u ++ ":" ++ toString gs.now) ∈ gs.retryMap := by
    by_contra hnm
    rw [← contains_eq_false_iff] at hnm
    exact hcon hnm
  obtain ⟨i, t, hl, hid, hmark⟩ :=
    (reachable_inv st hd acts gs hrun).rm_witness _ hmem
  exact hfresh i t hl (markedP_not_settledP _ hmark) hid

def c10post : GState :=
  (step (mkInit stA hdA) (.spawn "GET" urlA [] 120000)).getD (mkInit stA hdA)

theorem C10_request_identity_witness :
    (c10post.tasks[(mkInit stA hdA).tasks.length]?).map (fun t => t.ctx.hasRetried) =
      some false :=
  C10_request_identity.1 stA hdA [] (mkInit stA hdA) "GET" urlA [] 120000 c10post rfl
    (by intro i t hl; simp [mkInit] at hl) (by decide)

end MobileApi

